import Mathlib

/-!
Verification of the transaction-assembly engine of the Ord-Indexer wallet
canister (src/wallet).  The definitions below are a shallow embedding of the
four fee-converging transaction builders (plain Bitcoin send in
src/wallet/src/bitcoin/transaction.rs, two-sender send in multi_sender_txn.rs,
rune transfer in runestone.rs, combined transfer in combined_txn.rs), of the
UTXO manager they borrow inputs from, and of the sign-time transaction
re-assembly of src/wallet/src/transaction_handler.rs.

Conventions of the embedding:
* `u64`/`u128` quantities are `Nat`; the one place the source performs an
  unchecked subtraction that can underflow is modelled by `wsub64`, the
  wrapping subtraction of release-mode Rust (sums of UTXO values are taken as
  plain `Nat` addition; the engine never holds values anywhere near `2 ^ 64`).
* Addresses are identified with the string form that keys the UTXO manager;
  a `script_pubkey` is represented symbolically (`Script`), with its exact
  serialized byte length, which is all the fee computation observes.
* The UTXO manager (`src/wallet/src/state.rs`, absent from the provided
  sources) is modelled from the spec, section 4.2, as association lists of
  pools; `get_*` removes the head of a pool, `record_*` re-inserts.
* The `while let Some(u) = manager.get_*` selection loops of the builders are
  expressed as the recursive functions `take_until_gt`, `take_until_ge` and
  `take_runic_until_gt` acting on the pool the fixed address designates.
-/

/-- Wrapping subtraction of unsigned 64-bit Rust release builds: when the
subtrahend exceeds the minuend the difference wraps modulo `2 ^ 64`.  Both
arguments are assumed below `2 ^ 64`, as every `u64` of the source is. -/
def wsub64 (a b : Nat) : Nat :=
  if b ≤ a then a - b else a + 18446744073709551616 - b

/-- Wrapping u64 multiplication: the release-mode behaviour of `a * b` on
`u64` operands (used by every fee loop's `txn_vsize * fee_per_vbytes`,
whose product can exceed `u64::MAX` at caller-supplied fee rates). -/
def wmul64 (a b : Nat) : Nat :=
  a * b % 18446744073709551616

/-- A transaction outpoint: the id of the funding transaction and the index
of the output being spent (`bitcoin::OutPoint`). -/
structure Outpoint where
  txid : Nat
  vout : Nat
deriving DecidableEq, Repr

/-- A plain-Bitcoin unspent output as the manager stores it
(`ic_cdk ... bitcoin::Utxo`): outpoint plus value in satoshis. -/
structure Utxo where
  outpoint : Outpoint
  value : Nat
deriving DecidableEq, Repr

/-- `crate::types::RuneId`: the (block, tx) pair identifying a rune. -/
structure RuneId where
  block : Nat
  tx : Nat
deriving DecidableEq, Repr

/-- A runic unspent output (`crate::state::RunicUtxo`, modelled from the
spec, section 3): the underlying UTXO plus the rune balance it carries for
the rune under whose id the manager files it. -/
structure RunicUtxo where
  utxo : Utxo
  balance : Nat
deriving DecidableEq, Repr

/-- Fuel-bounded helper for `leb128_len`; structural recursion on the fuel
keeps the function kernel-reducible.  Whenever `n ≤ fuel` the fuel never runs
out before `n` drops below 128, because `n / 128 < n` for `n ≥ 128`, so the
0-fuel base case (reached only with `n = 0 < 128`) agrees with the test. -/
def leb128_len_aux : Nat → Nat → Nat
  | 0, _ => 1
  | fuel + 1, n => if n < 128 then 1 else 1 + leb128_len_aux fuel (n / 128)

/-- Byte length of the unsigned-LEB128 encoding of `n`, as used by the
Runestone payload (`ordinals` crate): one byte per 7-bit group. -/
def leb128_len (n : Nat) : Nat := leb128_len_aux n n

/-- Byte length of `Runestone { edicts: vec![Edict { id, amount, output }] }
.encipher()`: OP_RETURN, OP_13, one data push of the payload; the payload is
the Body tag (one byte) followed by the LEB128 encodings of the edict's
block, tx, amount and output index.  The payload of a single edict is at
most 36 bytes, so a single one-byte push opcode suffices. -/
def runestone_script_len (id : RuneId) (amount outIdx : Nat) : Nat :=
  3 + (1 + leb128_len id.block + leb128_len id.tx + leb128_len amount + leb128_len outIdx)

/-- A script_pubkey, kept symbolic: either the P2PKH script of an address or
the Runestone OP_RETURN enciphering the single transfer edict
`{ id, amount, output: outIdx }`. -/
inductive Script where
  | p2pkh (address : String)
  | runestoneOpReturn (id : RuneId) (amount outIdx : Nat)
deriving DecidableEq, Repr

/-- Serialized byte length of a script_pubkey; a P2PKH script is 25 bytes. -/
def Script.len : Script → Nat
  | .p2pkh _ => 25
  | .runestoneOpReturn id amount outIdx => runestone_script_len id amount outIdx

/-- A transaction input (`bitcoin::TxIn` with `Sequence::MAX` and empty
witness): the previous outpoint and the byte length of the scriptSig it
currently carries (0 for the unsigned skeleton the builders emit). -/
structure TxIn where
  previous_output : Outpoint
  script_sig_len : Nat
deriving DecidableEq, Repr

/-- A transaction output (`bitcoin::TxOut`). -/
structure TxOut where
  script_pubkey : Script
  value : Nat
deriving DecidableEq, Repr

/-- A legacy Bitcoin transaction; every transaction the wallet builds has
version 2 and lock_time 0. -/
structure Tx where
  version : Nat
  lock_time : Nat
  inputs : List TxIn
  outputs : List TxOut
deriving DecidableEq, Repr

/-- Byte length of the Bitcoin variable-length integer encoding of `n`. -/
def varint_len (n : Nat) : Nat :=
  if n < 253 then 1 else if n < 65536 then 3 else if n < 4294967296 then 5 else 9

/-- Serialized size of one input: 36-byte outpoint, varint-prefixed
scriptSig, 4-byte sequence. -/
def tx_in_size (i : TxIn) : Nat :=
  36 + varint_len i.script_sig_len + i.script_sig_len + 4

/-- Serialized size of one output: 8-byte value and varint-prefixed script. -/
def tx_out_size (o : TxOut) : Nat :=
  8 + varint_len o.script_pubkey.len + o.script_pubkey.len

/-- Serialized size of a legacy transaction, which equals its virtual size
(`Transaction::vsize` of the `bitcoin` crate): 4-byte version, varint-counted
inputs and outputs, 4-byte lock_time.  No witness data is ever attached. -/
def tx_size (t : Tx) : Nat :=
  4 + varint_len t.inputs.length + (t.inputs.map tx_in_size).sum
    + varint_len t.outputs.length + (t.outputs.map tx_out_size).sum + 4

/-- Modelled from the spec: byte length of the canonical dummy scriptSig the
signer's `mock_signature` (src/wallet/src/bitcoin/signer.rs, absent from the
provided sources) installs on every input — a push of a typical 72-byte DER
signature and a push of the 33-byte compressed pubkey: 1 + 72 + 1 + 33. -/
def mock_script_sig_len : Nat := 107

/-- Modelled from the spec: `mock_signature` clones the transaction and
populates each input's scriptSig with the canonical dummy so that the
virtual size measured for the fee computation is realistic. -/
def mock_signature (t : Tx) : Tx :=
  { t with inputs := t.inputs.map fun i => { i with script_sig_len := mock_script_sig_len } }

/-- Sum of the satoshi values of a list of plain UTXOs. -/
def sum_values (us : List Utxo) : Nat := (us.map (·.value)).sum

/-- Sum of the rune balances of a list of runic UTXOs. -/
def sum_balances (rs : List RunicUtxo) : Nat := (rs.map (·.balance)).sum

/-- Sum of the BTC values carried inside a list of runic UTXOs. -/
def runic_btc (rs : List RunicUtxo) : Nat := (rs.map (fun r => r.utxo.value)).sum

/-- Sum of the values of a transaction's outputs. -/
def sum_out (t : Tx) : Nat := (t.outputs.map (·.value)).sum

/-- Lookup in an association list of pools; a missing key is an empty pool. -/
def alist_get {κ α : Type} [DecidableEq κ] : List (κ × List α) → κ → List α
  | [], _ => []
  | (k, l) :: rest, key => if k = key then l else alist_get rest key

/-- Replace the pool of a key in an association list, appending a new entry
when the key is absent. -/
def alist_set {κ α : Type} [DecidableEq κ] : List (κ × List α) → κ → List α → List (κ × List α)
  | [], key, l => [(key, l)]
  | (k, l0) :: rest, key, l => if k = key then (key, l) :: rest else (k, l0) :: alist_set rest key l

/-- Modelled from the spec, section 4.2: the UTXO manager
(src/wallet/src/state.rs, absent from the provided sources) keeps one plain
pool per address and one runic pool per (address, rune id) pair. -/
structure UtxoManager where
  btc : List (String × List Utxo)
  runic : List ((String × RuneId) × List RunicUtxo)
deriving DecidableEq, Repr

/-- The plain pool of an address. -/
def UtxoManager.btcPool (m : UtxoManager) (addr : String) : List Utxo :=
  alist_get m.btc addr

/-- The runic pool of an (address, rune id) pair. -/
def UtxoManager.runicPool (m : UtxoManager) (addr : String) (runeid : RuneId) : List RunicUtxo :=
  alist_get m.runic (addr, runeid)

/-- Replace an address's plain pool. -/
def UtxoManager.setBtcPool (m : UtxoManager) (addr : String) (l : List Utxo) : UtxoManager :=
  { m with btc := alist_set m.btc addr l }

/-- Replace a runic pool. -/
def UtxoManager.setRunicPool (m : UtxoManager) (addr : String) (runeid : RuneId)
    (l : List RunicUtxo) : UtxoManager :=
  { m with runic := alist_set m.runic (addr, runeid) l }

/-- Modelled from the spec, section 4.2: `record_btc_utxos` re-inserts
borrowed plain UTXOs into an address's pool (the builders only ever re-insert
UTXOs they previously removed, so outpoint deduplication is vacuous here). -/
def UtxoManager.record_btc_utxos (m : UtxoManager) (addr : String) (us : List Utxo) :
    UtxoManager :=
  m.setBtcPool addr (us ++ m.btcPool addr)

/-- Modelled from the spec, section 4.2: `record_runic_utxos` re-inserts
borrowed runic UTXOs into a runic pool. -/
def UtxoManager.record_runic_utxos (m : UtxoManager) (addr : String) (runeid : RuneId)
    (rs : List RunicUtxo) : UtxoManager :=
  m.setRunicPool addr runeid (rs ++ m.runicPool addr runeid)

/-- The selection loop `while let Some(utxo) = manager.get_bitcoin_utxo(addr)
{ sum += utxo.value; utxos.push(utxo); if sum > target { break; } }` of
transaction.rs, runestone.rs and combined_txn.rs, expressed on the pool the
address designates.  Returns (taken, sum of taken, remaining pool). -/
def take_until_gt : List Utxo → Nat → List Utxo × Nat × List Utxo
  | [], _ => ([], 0, [])
  | u :: rest, target =>
    if target < u.value then ([u], u.value, rest)
    else
      let r := take_until_gt rest (target - u.value)
      (u :: r.1, u.value + r.2.1, r.2.2)

/-- The selection loop of multi_sender_txn.rs, which breaks as soon as the
running sum reaches the target (`if total_spent >= total_amount { break; }`). -/
def take_until_ge : List Utxo → Nat → List Utxo × Nat × List Utxo
  | [], _ => ([], 0, [])
  | u :: rest, target =>
    if target ≤ u.value then ([u], u.value, rest)
    else
      let r := take_until_ge rest (target - u.value)
      (u :: r.1, u.value + r.2.1, r.2.2)

/-- The runic selection loop of runestone.rs, which accumulates both the rune
balance and the BTC value of the drawn UTXOs and breaks once the balance
strictly exceeds the requested amount.  Returns
(taken, balance sum, BTC sum, remaining pool). -/
def take_runic_until_gt : List RunicUtxo → Nat → List RunicUtxo × Nat × Nat × List RunicUtxo
  | [], _ => ([], 0, 0, [])
  | r :: rest, amount =>
    if amount < r.balance then ([r], r.balance, r.utxo.value, rest)
    else
      let q := take_runic_until_gt rest (amount - r.balance)
      (r :: q.1, r.balance + q.2.1, r.utxo.value + q.2.2.1, q.2.2.2)

/-- Dust threshold, `const DUST_THRESHOLD: u64 = 1_000` of every builder. -/
def DUST_THRESHOLD : Nat := 1000

/-- `const DEFAULT_POSTAGE: u64 = 10_000` of runestone.rs and combined_txn.rs. -/
def DEFAULT_POSTAGE : Nat := 10000

/-- The rune-change test of runestone.rs, combined_txn.rs and their sign-time
re-assembly: `runic_total_spent > amount || runic_utxos.len() > 1`. -/
def rune_need_change (runic_total_spent amount count : Nat) : Bool :=
  decide (amount < runic_total_spent) || decide (1 < count)

/-- `required_btc_for_rune_output`: two postage outputs when rune change is
needed, one otherwise. -/
def rune_required_btc (need_change : Bool) (postage : Nat) : Nat :=
  if need_change then postage * 2 else postage

/-- `build_transaction_with_fee` of src/wallet/src/bitcoin/transaction.rs:
draw plain UTXOs of `addr` until their sum strictly exceeds
`amount (+ fee when the sender pays)`, fail with the required total when the
pool falls short (returning the drawn UTXOs), otherwise emit the receiver
output and a change output gated on the dust threshold.  The manager is
returned alongside, reflecting the pool mutations. -/
def btc_build_transaction_with_fee (m : UtxoManager) (addr : String)
    (sender_address to_address : String) (amount fee : Nat) (paid_by_sender : Bool) :
    Except Nat (Tx × List Utxo) × UtxoManager :=
  let total_amount := if paid_by_sender then amount + fee else amount
  let sel := take_until_gt (m.btcPool addr) total_amount
  let m1 := m.setBtcPool addr sel.2.2
  if sel.2.1 < total_amount then
    (.error total_amount, m1.record_btc_utxos addr sel.1)
  else
    let input := sel.1.map fun u => TxIn.mk u.outpoint 0
    let output0 := [TxOut.mk (Script.p2pkh to_address)
      (if paid_by_sender then amount else wsub64 amount fee)]
    let remaining := sel.2.1 - total_amount
    let output := if DUST_THRESHOLD < remaining
      then output0 ++ [TxOut.mk (Script.p2pkh sender_address) remaining]
      else output0
    (.ok (Tx.mk 2 0 input output, sel.1), m1)

/-- The converged plain-send result (`TransactionType::Bitcoin`); the `fee`
field records the converged fee of the loop, which the Rust variant leaves
implicit in the transaction it stores. -/
structure BitcoinTxnType where
  addr : String
  utxos : List Utxo
  signer_address : String
  txn : Tx
  fee : Nat
deriving DecidableEq, Repr

/-- The fee-converging loop `transfer` of transaction.rs: build with the
assumed fee, mock-sign, recompute the fee from the virtual size; return when
the recomputed fee equals the assumed one, otherwise return the borrowed
UTXOs and retry with the recomputed fee.  `fuel` bounds the number of
iterations; `none` means the loop was still running when fuel ran out. -/
def btc_transfer (addr sender_address to_address : String) (amount : Nat)
    (paid_by_sender : Bool) (fee_per_vbytes : Nat) :
    Nat → UtxoManager → Nat → Option (Except Nat BitcoinTxnType × UtxoManager)
  | 0, _, _ => none
  | fuel + 1, m, total_fee =>
    match btc_build_transaction_with_fee m addr sender_address to_address amount total_fee
        paid_by_sender with
    | (.error required, m') => some (.error required, m')
    | (.ok (txn, utxos), m') =>
      let txn_vsize := tx_size (mock_signature txn)
      if wmul64 txn_vsize fee_per_vbytes / 1000 = total_fee then
        some (.ok ⟨addr, utxos, sender_address, txn, total_fee⟩, m')
      else
        btc_transfer addr sender_address to_address amount paid_by_sender fee_per_vbytes
          fuel (m'.record_btc_utxos addr utxos) (wmul64 txn_vsize fee_per_vbytes / 1000)

/-- The fee split of multi_sender_txn.rs, lines 101-110: an even fee is
halved; an odd fee gives the extra satoshi to the SECOND party. -/
def multi_fee_split (fee : Nat) : Nat × Nat :=
  if fee % 2 = 0 then (fee / 2, fee / 2)
  else ((fee - 1) / 2, (fee - 1) / 2 + 1)

/-- The amount split of `withdraw_bitcoin_from_multiple_addresses`
(src/wallet/src/lib.rs, lines 151-160): an even amount is halved; an odd
amount gives the extra satoshi to the FIRST party. -/
def withdraw_two_senders_amount_split (amount : Nat) : Nat × Nat :=
  if amount % 2 = 0 then (amount / 2, amount / 2)
  else ((amount - 1) / 2 + 1, (amount - 1) / 2)

/-- `build_transaction_with_fee` of multi_sender_txn.rs: split the fee, drain
each sender's pool independently until that sender's share is reached, fail
with the pair of required totals, otherwise emit one combined receiver output
and per-sender change outputs gated on the dust threshold. -/
def multi_build_transaction_with_fee (m : UtxoManager) (addr0 addr1 : String)
    (address0 address1 receiver : String) (amount0 amount1 fee : Nat)
    (paid_by_sender : Bool) :
    Except (Nat × Nat) (Tx × List Utxo × List Utxo) × UtxoManager :=
  let fees := multi_fee_split fee
  let total_amount0 := if paid_by_sender then amount0 + fees.1 else amount0
  let total_amount1 := if paid_by_sender then amount1 + fees.2 else amount1
  let sel0 := take_until_ge (m.btcPool addr0) total_amount0
  let m1 := m.setBtcPool addr0 sel0.2.2
  let sel1 := take_until_ge (m1.btcPool addr1) total_amount1
  let m2 := m1.setBtcPool addr1 sel1.2.2
  if sel0.2.1 < total_amount0 ∨ sel1.2.1 < total_amount1 then
    (.error (total_amount0, total_amount1),
      (m2.record_btc_utxos addr0 sel0.1).record_btc_utxos addr1 sel1.1)
  else
    let input := sel0.1.map (fun u => TxIn.mk u.outpoint 0)
      ++ sel1.1.map (fun u => TxIn.mk u.outpoint 0)
    let output0 := [TxOut.mk (Script.p2pkh receiver)
      (if paid_by_sender then amount0 + amount1
       else wsub64 (wsub64 (amount0 + amount1) fees.1) fees.2)]
    let remaining0 := sel0.2.1 - total_amount0
    let out1 := if DUST_THRESHOLD < remaining0
      then output0 ++ [TxOut.mk (Script.p2pkh address0) remaining0]
      else output0
    let remaining1 := sel1.2.1 - total_amount1
    let output := if DUST_THRESHOLD < remaining1
      then out1 ++ [TxOut.mk (Script.p2pkh address1) remaining1]
      else out1
    (.ok (Tx.mk 2 0 input output, sel0.1, sel1.1), m2)

/-- The converged two-sender result (`TransactionType::LegoBitcoin`); `txn`
additionally records the transaction the final builder iteration produced
(the Rust variant stores only the ingredients and re-assembles it at sign
time, byte-identically). -/
structure LegoBitcoinTxnType where
  addr0 : String
  addr1 : String
  address0 : String
  address1 : String
  utxos0 : List Utxo
  utxos1 : List Utxo
  amount0 : Nat
  amount1 : Nat
  fee : Nat
  paid_by_sender : Bool
  receiver : String
  txn : Tx
deriving DecidableEq, Repr

/-- The fee-converging loop `transfer` of multi_sender_txn.rs. -/
def multi_transfer (addr0 addr1 address0 address1 receiver : String)
    (amount0 amount1 : Nat) (fee_per_vbytes : Nat) (paid_by_sender : Bool) :
    Nat → UtxoManager → Nat → Option (Except (Nat × Nat) LegoBitcoinTxnType × UtxoManager)
  | 0, _, _ => none
  | fuel + 1, m, total_fee =>
    match multi_build_transaction_with_fee m addr0 addr1 address0 address1 receiver
        amount0 amount1 total_fee paid_by_sender with
    | (.error e, m') => some (.error e, m')
    | (.ok (txn, utxos0, utxos1), m') =>
      let txn_vsize := tx_size (mock_signature txn)
      if wmul64 txn_vsize fee_per_vbytes / 1000 = total_fee then
        some (.ok ⟨addr0, addr1, address0, address1, utxos0, utxos1, amount0, amount1,
          total_fee, paid_by_sender, receiver, txn⟩, m')
      else
        multi_transfer addr0 addr1 address0 address1 receiver amount0 amount1
          fee_per_vbytes paid_by_sender fuel
          ((m'.record_btc_utxos addr0 utxos0).record_btc_utxos addr1 utxos1)
          (wmul64 txn_vsize fee_per_vbytes / 1000)

/-- `build_transaction_with_fee` of src/wallet/src/bitcoin/runestone.rs: draw
runic UTXOs of the sender until their balance strictly exceeds `amount`
(failing with `(amount, 0)` when the pool falls short), compute the BTC the
postage outputs require beyond what the runic inputs carry (an unchecked u64
subtraction), draw plain UTXOs of the fee payer until they strictly exceed
`fee + actual_required_btc` (failing with `(0, fee)`), then assemble the
Runestone OP_RETURN / postage outputs and the dust-gated change output. -/
def rune_build_transaction_with_fee (m : UtxoManager) (runeid : RuneId) (amount : Nat)
    (sender_addr receiver_addr sender_address receiver_address : String)
    (fee : Nat) (paid_by_sender : Bool) (postage : Nat) :
    Except (Nat × Nat) (Tx × List RunicUtxo × List Utxo) × UtxoManager :=
  let rsel := take_runic_until_gt (m.runicPool sender_addr runeid) amount
  let runic_total_spent := rsel.2.1
  let btc_in_runic := rsel.2.2.1
  let m1 := m.setRunicPool sender_addr runeid rsel.2.2.2
  if runic_total_spent < amount then
    (.error (amount, 0), m1.record_runic_utxos sender_addr runeid rsel.1)
  else
    let need_change_rune_output := rune_need_change runic_total_spent amount rsel.1.length
    let required_btc_for_rune_output := rune_required_btc need_change_rune_output postage
    let actual_required_btc := wsub64 required_btc_for_rune_output btc_in_runic
    let fee_payer := if paid_by_sender then sender_addr else receiver_addr
    let fsel := take_until_gt (m1.btcPool fee_payer) (fee + actual_required_btc)
    let fee_total_spent := fsel.2.1
    let m2 := m1.setBtcPool fee_payer fsel.2.2
    if fee_total_spent < fee + actual_required_btc then
      (.error (0, fee), m2.record_btc_utxos fee_payer fsel.1)
    else
      let input := rsel.1.map (fun r => TxIn.mk r.utxo.outpoint 0)
        ++ fsel.1.map (fun u => TxIn.mk u.outpoint 0)
      let output0 := if need_change_rune_output then
          [TxOut.mk (Script.runestoneOpReturn runeid amount 2) 0,
           TxOut.mk (Script.p2pkh sender_address) postage,
           TxOut.mk (Script.p2pkh receiver_address) postage]
        else
          [TxOut.mk (Script.p2pkh receiver_address) postage]
      let remaining := wsub64 (wsub64 fee_total_spent fee) actual_required_btc
      let output := if DUST_THRESHOLD < remaining then
          if paid_by_sender then
            output0 ++ [TxOut.mk (Script.p2pkh sender_address) remaining]
          else
            output0 ++ [TxOut.mk (Script.p2pkh receiver_address) remaining]
        else output0
      (.ok (Tx.mk 2 0 input output, rsel.1, fsel.1), m2)

/-- The converged rune-transfer result (`TransactionType::Runestone`); `txn`
additionally records the transaction the final builder iteration produced
(the Rust variant stores only the ingredients and re-assembles it at sign
time, byte-identically). -/
structure RunestoneTxnType where
  sender_addr : String
  receiver_addr : String
  runeid : RuneId
  amount : Nat
  fee : Nat
  runic_utxos : List RunicUtxo
  fee_utxos : List Utxo
  paid_by_sender : Bool
  sender_address : String
  receiver_address : String
  postage : Nat
  txn : Tx
deriving DecidableEq, Repr

/-- The fee-converging loop `transfer` of runestone.rs; on a restart the
runic UTXOs go back to the sender's runic pool and the fee UTXOs to the fee
payer's plain pool. -/
def rune_transfer (runeid : RuneId) (amount : Nat)
    (sender_addr receiver_addr sender_address receiver_address : String)
    (fee_per_vbytes : Nat) (paid_by_sender : Bool) (postage_arg : Option Nat) :
    Nat → UtxoManager → Nat → Option (Except (Nat × Nat) RunestoneTxnType × UtxoManager)
  | 0, _, _ => none
  | fuel + 1, m, total_fee =>
    let postage := postage_arg.getD DEFAULT_POSTAGE
    match rune_build_transaction_with_fee m runeid amount sender_addr receiver_addr
        sender_address receiver_address total_fee paid_by_sender postage with
    | (.error e, m') => some (.error e, m')
    | (.ok (txn, runic_utxos, fee_utxos), m') =>
      let txn_vsize := tx_size (mock_signature txn)
      if wmul64 txn_vsize fee_per_vbytes / 1000 = total_fee then
        some (.ok ⟨sender_addr, receiver_addr, runeid, amount, total_fee, runic_utxos,
          fee_utxos, paid_by_sender, sender_address, receiver_address, postage, txn⟩, m')
      else
        rune_transfer runeid amount sender_addr receiver_addr sender_address
          receiver_address fee_per_vbytes paid_by_sender postage_arg fuel
          ((m'.record_runic_utxos sender_addr runeid runic_utxos).record_btc_utxos
            (if paid_by_sender then sender_addr else receiver_addr) fee_utxos)
          (wmul64 txn_vsize fee_per_vbytes / 1000)

/-- `build_transaction_with_fee` of src/wallet/src/bitcoin/combined_txn.rs.
The runic selection loop has NO break: it drains every runic UTXO the sender
holds for the rune.  Then plain UTXOs of the sender cover `btc_amount`, and —
when the receiver pays the fee — plain UTXOs of the receiver cover
`fee + actual_required_btc`; when the sender pays, no fee UTXOs are drawn and
the check re-uses the sender's `btc_total_spent` against an unchecked
subtraction chain. -/
def combined_build_transaction_with_fee (m : UtxoManager)
    (from_addr receiver_addr sender_address receiver_address : String)
    (runeid : RuneId) (rune_amount btc_amount postage fee : Nat) (paid_by_sender : Bool) :
    Except (Nat × Nat × Nat) (Tx × List RunicUtxo × List Utxo × List Utxo) × UtxoManager :=
  let runic_utxos := m.runicPool from_addr runeid
  let runic_total_spent := sum_balances runic_utxos
  let btc_in_runic_spent := runic_btc runic_utxos
  let m1 := m.setRunicPool from_addr runeid []
  if runic_total_spent < rune_amount then
    (.error (rune_amount, btc_amount, fee), m1.record_runic_utxos from_addr runeid runic_utxos)
  else
    let bsel := take_until_gt (m1.btcPool from_addr) btc_amount
    let btc_total_spent := bsel.2.1
    let m2 := m1.setBtcPool from_addr bsel.2.2
    if btc_total_spent < btc_amount then
      (.error (rune_amount, btc_amount, fee), m2.record_btc_utxos from_addr bsel.1)
    else
      let need_change_rune_output :=
        rune_need_change runic_total_spent rune_amount runic_utxos.length
      let required_btc_for_rune_output := rune_required_btc need_change_rune_output postage
      let actual_required_btc := wsub64 required_btc_for_rune_output btc_in_runic_spent
      if paid_by_sender then
        if btc_total_spent < wsub64 (wsub64 btc_amount actual_required_btc) fee then
          (.error (rune_amount, btc_amount + actual_required_btc + fee, 0), m2)
        else
          let input := runic_utxos.map (fun r => TxIn.mk r.utxo.outpoint 0)
            ++ bsel.1.map (fun u => TxIn.mk u.outpoint 0)
          let output0 := if need_change_rune_output then
              [TxOut.mk (Script.runestoneOpReturn runeid rune_amount 2) 0,
               TxOut.mk (Script.p2pkh sender_address) postage,
               TxOut.mk (Script.p2pkh receiver_address) postage]
            else
              [TxOut.mk (Script.p2pkh receiver_address) postage]
          let out1 := output0 ++ [TxOut.mk (Script.p2pkh receiver_address) btc_amount]
          let remaining :=
            wsub64 (wsub64 (wsub64 btc_total_spent btc_amount) fee) actual_required_btc
          let output := if DUST_THRESHOLD < remaining
            then out1 ++ [TxOut.mk (Script.p2pkh sender_address) remaining]
            else out1
          (.ok (Tx.mk 2 0 input output, runic_utxos, bsel.1, []), m2)
      else
        let fsel := take_until_gt (m2.btcPool receiver_addr) (fee + actual_required_btc)
        let fee_total_spent := fsel.2.1
        let m3 := m2.setBtcPool receiver_addr fsel.2.2
        if fee_total_spent < fee + actual_required_btc then
          (.error (rune_amount, btc_amount, fee + actual_required_btc),
            m3.record_btc_utxos receiver_addr fsel.1)
        else
          let input := runic_utxos.map (fun r => TxIn.mk r.utxo.outpoint 0)
            ++ bsel.1.map (fun u => TxIn.mk u.outpoint 0)
            ++ fsel.1.map (fun u => TxIn.mk u.outpoint 0)
          let output0 := if need_change_rune_output then
              [TxOut.mk (Script.runestoneOpReturn runeid rune_amount 2) 0,
               TxOut.mk (Script.p2pkh sender_address) postage,
               TxOut.mk (Script.p2pkh receiver_address) postage]
            else
              [TxOut.mk (Script.p2pkh receiver_address) postage]
          let out1 := output0 ++ [TxOut.mk (Script.p2pkh receiver_address) btc_amount]
          let remaining_btc_of_sender := wsub64 btc_total_spent btc_amount
          let out2 := if DUST_THRESHOLD < remaining_btc_of_sender
            then out1 ++ [TxOut.mk (Script.p2pkh sender_address) remaining_btc_of_sender]
            else out1
          let remaining := wsub64 (wsub64 fee_total_spent fee) actual_required_btc
          let output := if DUST_THRESHOLD < remaining
            then out2 ++ [TxOut.mk (Script.p2pkh receiver_address) remaining]
            else out2
          (.ok (Tx.mk 2 0 input output, runic_utxos, bsel.1, fsel.1), m3)

/-- The converged combined-transfer result (`TransactionType::Combined`);
`txn` additionally records the transaction the final builder iteration
produced (re-assembled byte-identically at sign time by the Rust code). -/
structure CombinedTxnType where
  sender_addr : String
  receiver_addr : String
  sender_address : String
  receiver_address : String
  runic_utxos : List RunicUtxo
  btc_utxos : List Utxo
  fee_utxos : List Utxo
  runeid : RuneId
  rune_amount : Nat
  btc_amount : Nat
  fee : Nat
  postage : Nat
  paid_by_sender : Bool
  txn : Tx
deriving DecidableEq, Repr

/-- The fee-converging loop `transfer` of combined_txn.rs; a restart returns
the runic and plain UTXOs to the sender and the fee UTXOs to the receiver. -/
def combined_transfer (from_addr receiver_addr sender_address receiver_address : String)
    (runeid : RuneId) (rune_amount btc_amount : Nat) (postage_arg : Option Nat)
    (fee_per_vbytes : Nat) (paid_by_sender : Bool) :
    Nat → UtxoManager → Nat →
      Option (Except (Nat × Nat × Nat) CombinedTxnType × UtxoManager)
  | 0, _, _ => none
  | fuel + 1, m, total_fee =>
    let postage := postage_arg.getD DEFAULT_POSTAGE
    match combined_build_transaction_with_fee m from_addr receiver_addr sender_address
        receiver_address runeid rune_amount btc_amount postage total_fee paid_by_sender with
    | (.error e, m') => some (.error e, m')
    | (.ok (txn, runic_utxos, btc_utxos, fee_utxos), m') =>
      let txn_vsize := tx_size (mock_signature txn)
      if wmul64 txn_vsize fee_per_vbytes / 1000 = total_fee then
        some (.ok ⟨from_addr, receiver_addr, sender_address, receiver_address, runic_utxos,
          btc_utxos, fee_utxos, runeid, rune_amount, btc_amount, total_fee, postage,
          paid_by_sender, txn⟩, m')
      else
        combined_transfer from_addr receiver_addr sender_address receiver_address runeid
          rune_amount btc_amount postage_arg fee_per_vbytes paid_by_sender fuel
          (((m'.record_runic_utxos from_addr runeid runic_utxos).record_btc_utxos
              from_addr btc_utxos).record_btc_utxos receiver_addr fee_utxos)
          (wmul64 txn_vsize fee_per_vbytes / 1000)

/-- The transaction re-assembled at sign time by the `LegoBitcoin` arm of
`TransactionType::build_and_submit` (src/wallet/src/transaction_handler.rs,
lines 154-241), before any signature is attached: inputs from the stored
UTXO lists in order, the combined receiver output, and the two dust-gated
change outputs recomputed from the re-summed totals and the re-split fee. -/
def lego_sign_time_txn (utxos0 utxos1 : List Utxo) (address0 address1 receiver : String)
    (amount0 amount1 fee : Nat) (paid_by_sender : Bool) : Tx :=
  let input := utxos0.map (fun u => TxIn.mk u.outpoint 0)
    ++ utxos1.map (fun u => TxIn.mk u.outpoint 0)
  let total_spent0 := sum_values utxos0
  let total_spent1 := sum_values utxos1
  let output0 := [TxOut.mk (Script.p2pkh receiver)
    (if paid_by_sender then amount0 + amount1 else wsub64 (amount0 + amount1) fee)]
  let fees := multi_fee_split fee
  let amount0' := if paid_by_sender then amount0 + fees.1 else amount0
  let amount1' := if paid_by_sender then amount1 + fees.2 else amount1
  let remaining0 := wsub64 total_spent0 amount0'
  let out1 := if DUST_THRESHOLD < remaining0
    then output0 ++ [TxOut.mk (Script.p2pkh address0) remaining0]
    else output0
  let remaining1 := wsub64 total_spent1 amount1'
  let output := if DUST_THRESHOLD < remaining1
    then out1 ++ [TxOut.mk (Script.p2pkh address1) remaining1]
    else out1
  Tx.mk 2 0 input output

/-- The transaction re-assembled at sign time by the `Runestone` arm of
`TransactionType::build_and_submit` (transaction_handler.rs, lines 319-450),
before any signature is attached: runic totals, BTC-in-runic and the fee
total are recomputed from the stored UTXO lists, and the outputs are rebuilt
with the same need-change test, postage outputs and dust-gated change. -/
def rune_sign_time_txn (runic_utxos : List RunicUtxo) (fee_utxos : List Utxo)
    (sender_address receiver_address : String) (runeid : RuneId)
    (amount fee postage : Nat) (paid_by_sender : Bool) : Tx :=
  let runic_total_spent := sum_balances runic_utxos
  let btc_in_runic_spent := runic_btc runic_utxos
  let fee_total_spent := sum_values fee_utxos
  let input := runic_utxos.map (fun r => TxIn.mk r.utxo.outpoint 0)
    ++ fee_utxos.map (fun u => TxIn.mk u.outpoint 0)
  let need_change_rune_output := rune_need_change runic_total_spent amount runic_utxos.length
  let required_btc_for_rune_output := rune_required_btc need_change_rune_output postage
  let actual_required_btc := wsub64 required_btc_for_rune_output btc_in_runic_spent
  let output0 := if need_change_rune_output then
      [TxOut.mk (Script.runestoneOpReturn runeid amount 2) 0,
       TxOut.mk (Script.p2pkh sender_address) postage,
       TxOut.mk (Script.p2pkh receiver_address) postage]
    else
      [TxOut.mk (Script.p2pkh receiver_address) postage]
  let remaining := wsub64 (wsub64 fee_total_spent fee) actual_required_btc
  let output := if DUST_THRESHOLD < remaining then
      if paid_by_sender then
        output0 ++ [TxOut.mk (Script.p2pkh sender_address) remaining]
      else
        output0 ++ [TxOut.mk (Script.p2pkh receiver_address) remaining]
    else output0
  Tx.mk 2 0 input output

/-- The transaction re-assembled at sign time by the `Combined` arm of
`TransactionType::build_and_submit` (transaction_handler.rs, lines 532-698),
before any signature is attached: totals recomputed from the stored lists,
the rune outputs, the BTC payment output, and the dust-gated change outputs
of whichever fee-payment branch applies. -/
def combined_sign_time_txn (runic_utxos : List RunicUtxo) (btc_utxos fee_utxos : List Utxo)
    (sender_address receiver_address : String) (runeid : RuneId)
    (rune_amount btc_amount fee postage : Nat) (paid_by_sender : Bool) : Tx :=
  let runic_total_spent := sum_balances runic_utxos
  let btc_in_runic_spent := runic_btc runic_utxos
  let btc_total_spent := sum_values btc_utxos
  let fee_total_spent := sum_values fee_utxos
  let input := runic_utxos.map (fun r => TxIn.mk r.utxo.outpoint 0)
    ++ btc_utxos.map (fun u => TxIn.mk u.outpoint 0)
    ++ fee_utxos.map (fun u => TxIn.mk u.outpoint 0)
  let need_change_rune_output :=
    rune_need_change runic_total_spent rune_amount runic_utxos.length
  let required_btc_for_rune_output := rune_required_btc need_change_rune_output postage
  let actual_required_btc := wsub64 required_btc_for_rune_output btc_in_runic_spent
  let output0 := if need_change_rune_output then
      [TxOut.mk (Script.runestoneOpReturn runeid rune_amount 2) 0,
       TxOut.mk (Script.p2pkh sender_address) postage,
       TxOut.mk (Script.p2pkh receiver_address) postage]
    else
      [TxOut.mk (Script.p2pkh receiver_address) postage]
  let out1 := output0 ++ [TxOut.mk (Script.p2pkh receiver_address) btc_amount]
  let output := if paid_by_sender then
      let remaining :=
        wsub64 (wsub64 (wsub64 btc_total_spent btc_amount) fee) actual_required_btc
      if DUST_THRESHOLD < remaining
        then out1 ++ [TxOut.mk (Script.p2pkh sender_address) remaining]
        else out1
    else
      let remaining_sender_btc := wsub64 btc_total_spent btc_amount
      let out2 := if DUST_THRESHOLD < remaining_sender_btc
        then out1 ++ [TxOut.mk (Script.p2pkh sender_address) remaining_sender_btc]
        else out1
      let remaining_balance := wsub64 (wsub64 fee_total_spent fee) actual_required_btc
      if DUST_THRESHOLD < remaining_balance
        then out2 ++ [TxOut.mk (Script.p2pkh receiver_address) remaining_balance]
        else out2
  Tx.mk 2 0 input output

lemma wsub64_of_le {a b : Nat} (h : b ≤ a) : wsub64 a b = a - b := by
  simp [wsub64, h]

lemma wsub64_chain {a b c : Nat} (h : b + c < 18446744073709551616) :
    wsub64 (wsub64 a b) c = wsub64 a (b + c) := by
  unfold wsub64
  split_ifs <;> omega

lemma multi_fee_split_add (fee : Nat) :
    (multi_fee_split fee).1 + (multi_fee_split fee).2 = fee := by
  unfold multi_fee_split
  split_ifs <;> simp <;> omega

lemma alist_get_set {κ α : Type} [DecidableEq κ] (ps : List (κ × List α)) (k key : κ)
    (l : List α) :
    alist_get (alist_set ps k l) key = if k = key then l else alist_get ps key := by
  induction ps with
  | nil => simp [alist_set, alist_get]
  | cons p rest ih =>
    obtain ⟨k0, l0⟩ := p
    simp only [alist_set, alist_get]
    by_cases h0 : k0 = k
    · subst h0
      by_cases h1 : k0 = key <;> simp [alist_get, h1]
    · by_cases h1 : k0 = key
      · subst h1
        have hk : ¬ k = k0 := fun h => h0 h.symm
        simp [alist_get, h0, hk]
      · simp [alist_get, h0, h1, ih]

lemma btcPool_setBtcPool (m : UtxoManager) (a : String) (l : List Utxo) (x : String) :
    (m.setBtcPool a l).btcPool x = if a = x then l else m.btcPool x := by
  simp [UtxoManager.setBtcPool, UtxoManager.btcPool, alist_get_set]

lemma runicPool_setBtcPool (m : UtxoManager) (a : String) (l : List Utxo) (x : String)
    (rid : RuneId) : (m.setBtcPool a l).runicPool x rid = m.runicPool x rid := rfl

lemma btcPool_setRunicPool (m : UtxoManager) (a : String) (rid : RuneId)
    (l : List RunicUtxo) (x : String) :
    (m.setRunicPool a rid l).btcPool x = m.btcPool x := rfl

lemma runicPool_setRunicPool (m : UtxoManager) (a : String) (rid : RuneId)
    (l : List RunicUtxo) (x : String) (rid' : RuneId) :
    (m.setRunicPool a rid l).runicPool x rid' =
      if a = x ∧ rid = rid' then l else m.runicPool x rid' := by
  simp only [UtxoManager.setRunicPool, UtxoManager.runicPool, alist_get_set]
  by_cases h : (a, rid) = (x, rid')
  · rw [if_pos h, if_pos]
    have h1 := congrArg Prod.fst h
    have h2 := congrArg Prod.snd h
    exact ⟨h1, h2⟩
  · rw [if_neg h, if_neg]
    intro hc
    exact h (by rw [hc.1, hc.2])

lemma btcPool_record (m : UtxoManager) (a : String) (us : List Utxo) (x : String) :
    (m.record_btc_utxos a us).btcPool x =
      if a = x then us ++ m.btcPool a else m.btcPool x := by
  simp [UtxoManager.record_btc_utxos, btcPool_setBtcPool]

lemma runicPool_record_btc (m : UtxoManager) (a : String) (us : List Utxo) (x : String)
    (rid : RuneId) : (m.record_btc_utxos a us).runicPool x rid = m.runicPool x rid := rfl

lemma runicPool_record (m : UtxoManager) (a : String) (rid : RuneId) (rs : List RunicUtxo)
    (x : String) (rid' : RuneId) :
    (m.record_runic_utxos a rid rs).runicPool x rid' =
      if a = x ∧ rid = rid' then rs ++ m.runicPool a rid else m.runicPool x rid' := by
  simp [UtxoManager.record_runic_utxos, runicPool_setRunicPool]

lemma btcPool_record_runic (m : UtxoManager) (a : String) (rid : RuneId)
    (rs : List RunicUtxo) (x : String) :
    (m.record_runic_utxos a rid rs).btcPool x = m.btcPool x := rfl

lemma take_until_gt_append (pool : List Utxo) (t : Nat) :
    (take_until_gt pool t).1 ++ (take_until_gt pool t).2.2 = pool := by
  induction pool generalizing t with
  | nil => simp [take_until_gt]
  | cons u rest ih =>
    simp only [take_until_gt]
    split
    · simp
    · simpa using ih (t - u.value)

lemma take_until_gt_sum (pool : List Utxo) (t : Nat) :
    (take_until_gt pool t).2.1 = sum_values (take_until_gt pool t).1 := by
  induction pool generalizing t with
  | nil => simp [take_until_gt, sum_values]
  | cons u rest ih =>
    simp only [take_until_gt]
    split
    · simp [sum_values]
    · simpa [sum_values] using ih (t - u.value)

lemma take_until_gt_exhaust (pool : List Utxo) (t : Nat)
    (h : (take_until_gt pool t).2.1 ≤ t) : (take_until_gt pool t).2.2 = [] := by
  induction pool generalizing t with
  | nil => simp [take_until_gt]
  | cons u rest ih =>
    by_cases hc : t < u.value
    · simp only [take_until_gt, if_pos hc] at h
      exact absurd h (by omega)
    · simp only [take_until_gt, if_neg hc] at h ⊢
      exact ih (t - u.value) (by omega)

lemma take_until_ge_append (pool : List Utxo) (t : Nat) :
    (take_until_ge pool t).1 ++ (take_until_ge pool t).2.2 = pool := by
  induction pool generalizing t with
  | nil => simp [take_until_ge]
  | cons u rest ih =>
    simp only [take_until_ge]
    split
    · simp
    · simpa using ih (t - u.value)

lemma take_until_ge_sum (pool : List Utxo) (t : Nat) :
    (take_until_ge pool t).2.1 = sum_values (take_until_ge pool t).1 := by
  induction pool generalizing t with
  | nil => simp [take_until_ge, sum_values]
  | cons u rest ih =>
    simp only [take_until_ge]
    split
    · simp [sum_values]
    · simpa [sum_values] using ih (t - u.value)

lemma take_runic_until_gt_append (pool : List RunicUtxo) (t : Nat) :
    (take_runic_until_gt pool t).1 ++ (take_runic_until_gt pool t).2.2.2 = pool := by
  induction pool generalizing t with
  | nil => simp [take_runic_until_gt]
  | cons r rest ih =>
    simp only [take_runic_until_gt]
    split
    · simp
    · simpa using ih (t - r.balance)

lemma take_runic_until_gt_sum (pool : List RunicUtxo) (t : Nat) :
    (take_runic_until_gt pool t).2.1 = sum_balances (take_runic_until_gt pool t).1 := by
  induction pool generalizing t with
  | nil => simp [take_runic_until_gt, sum_balances]
  | cons r rest ih =>
    simp only [take_runic_until_gt]
    split
    · simp [sum_balances]
    · simpa [sum_balances] using ih (t - r.balance)

lemma take_runic_until_gt_btc (pool : List RunicUtxo) (t : Nat) :
    (take_runic_until_gt pool t).2.2.1 = runic_btc (take_runic_until_gt pool t).1 := by
  induction pool generalizing t with
  | nil => simp [take_runic_until_gt, runic_btc]
  | cons r rest ih =>
    simp only [take_runic_until_gt]
    split
    · simp [runic_btc]
    · simpa [runic_btc] using ih (t - r.balance)

lemma take_runic_until_gt_exhaust (pool : List RunicUtxo) (t : Nat)
    (h : (take_runic_until_gt pool t).2.1 ≤ t) : (take_runic_until_gt pool t).2.2.2 = [] := by
  induction pool generalizing t with
  | nil => simp [take_runic_until_gt]
  | cons r rest ih =>
    by_cases hc : t < r.balance
    · simp only [take_runic_until_gt, if_pos hc] at h
      exact absurd h (by omega)
    · simp only [take_runic_until_gt, if_neg hc] at h ⊢
      exact ih (t - r.balance) (by omega)

lemma take_runic_until_gt_dropLast (pool : List RunicUtxo) (t : Nat) :
    sum_balances (take_runic_until_gt pool t).1.dropLast ≤ t := by
  induction pool generalizing t with
  | nil => simp [take_runic_until_gt, sum_balances]
  | cons r rest ih =>
    by_cases hc : t < r.balance
    · simp [take_runic_until_gt, if_pos hc, sum_balances]
    · simp only [take_runic_until_gt, if_neg hc]
      rcases hq : (take_runic_until_gt rest (t - r.balance)).1 with _ | ⟨x, xs⟩
      · simp [hq, sum_balances]
      · have hih := ih (t - r.balance)
        rw [hq] at hih
        rw [List.dropLast_cons_of_ne_nil (by simp)]
        simp only [sum_balances, List.map_cons, List.sum_cons] at hih ⊢
        omega

lemma btc_build_ok {m : UtxoManager} {addr sa ta : String} {amount fee : Nat}
    {paid : Bool} {tx : Tx} {sel : List Utxo} {m' : UtxoManager}
    (h : btc_build_transaction_with_fee m addr sa ta amount fee paid = (.ok (tx, sel), m')) :
    let T := if paid then amount + fee else amount
    let q := take_until_gt (m.btcPool addr) T
    sel = q.1 ∧ T ≤ q.2.1 ∧ m' = m.setBtcPool addr q.2.2 ∧
    tx = Tx.mk 2 0 (q.1.map fun u => TxIn.mk u.outpoint 0)
      (if DUST_THRESHOLD < q.2.1 - T
       then [TxOut.mk (Script.p2pkh ta) (if paid then amount else wsub64 amount fee),
             TxOut.mk (Script.p2pkh sa) (q.2.1 - T)]
       else [TxOut.mk (Script.p2pkh ta) (if paid then amount else wsub64 amount fee)]) := by
  intro T q
  simp only [btc_build_transaction_with_fee] at h
  by_cases hs : (take_until_gt (m.btcPool addr) (if paid then amount + fee else amount)).2.1 <
      (if paid then amount + fee else amount)
  · rw [if_pos hs] at h
    simp at h
  · rw [if_neg hs] at h
    simp only [Prod.mk.injEq, Except.ok.injEq] at h
    obtain ⟨⟨htx, hsel⟩, hm⟩ := h
    exact ⟨hsel.symm, Nat.le_of_not_lt hs, hm.symm, htx.symm⟩

lemma btc_build_error {m : UtxoManager} {addr sa ta : String} {amount fee : Nat}
    {paid : Bool} {e : Nat} {m' : UtxoManager}
    (h : btc_build_transaction_with_fee m addr sa ta amount fee paid = (.error e, m')) :
    let T := if paid then amount + fee else amount
    let q := take_until_gt (m.btcPool addr) T
    q.2.1 < T ∧ e = T ∧ m' = (m.setBtcPool addr q.2.2).record_btc_utxos addr q.1 := by
  intro T q
  simp only [btc_build_transaction_with_fee] at h
  by_cases hs : (take_until_gt (m.btcPool addr) (if paid then amount + fee else amount)).2.1 <
      (if paid then amount + fee else amount)
  · rw [if_pos hs] at h
    simp only [Prod.mk.injEq, Except.error.injEq] at h
    exact ⟨hs, h.1.symm, h.2.symm⟩
  · rw [if_neg hs] at h
    simp at h

lemma multi_build_ok {m : UtxoManager} {addr0 addr1 a0 a1 recv : String}
    {amount0 amount1 fee : Nat} {paid : Bool} {tx : Tx} {sel0 sel1 : List Utxo}
    {m' : UtxoManager}
    (h : multi_build_transaction_with_fee m addr0 addr1 a0 a1 recv amount0 amount1 fee paid
      = (.ok (tx, sel0, sel1), m')) :
    let T0 := if paid then amount0 + (multi_fee_split fee).1 else amount0
    let T1 := if paid then amount1 + (multi_fee_split fee).2 else amount1
    let q0 := take_until_ge (m.btcPool addr0) T0
    let q1 := take_until_ge ((m.setBtcPool addr0 q0.2.2).btcPool addr1) T1
    sel0 = q0.1 ∧ sel1 = q1.1 ∧ T0 ≤ q0.2.1 ∧ T1 ≤ q1.2.1 ∧
    m' = (m.setBtcPool addr0 q0.2.2).setBtcPool addr1 q1.2.2 ∧
    tx = Tx.mk 2 0
      (q0.1.map (fun u => TxIn.mk u.outpoint 0) ++ q1.1.map (fun u => TxIn.mk u.outpoint 0))
      (if DUST_THRESHOLD < q1.2.1 - T1
       then (if DUST_THRESHOLD < q0.2.1 - T0
             then [TxOut.mk (Script.p2pkh recv)
                     (if paid then amount0 + amount1
                      else wsub64 (wsub64 (amount0 + amount1) (multi_fee_split fee).1)
                        (multi_fee_split fee).2)] ++
                  [TxOut.mk (Script.p2pkh a0) (q0.2.1 - T0)]
             else [TxOut.mk (Script.p2pkh recv)
                     (if paid then amount0 + amount1
                      else wsub64 (wsub64 (amount0 + amount1) (multi_fee_split fee).1)
                        (multi_fee_split fee).2)]) ++
            [TxOut.mk (Script.p2pkh a1) (q1.2.1 - T1)]
       else if DUST_THRESHOLD < q0.2.1 - T0
             then [TxOut.mk (Script.p2pkh recv)
                     (if paid then amount0 + amount1
                      else wsub64 (wsub64 (amount0 + amount1) (multi_fee_split fee).1)
                        (multi_fee_split fee).2)] ++
                  [TxOut.mk (Script.p2pkh a0) (q0.2.1 - T0)]
             else [TxOut.mk (Script.p2pkh recv)
                     (if paid then amount0 + amount1
                      else wsub64 (wsub64 (amount0 + amount1) (multi_fee_split fee).1)
                        (multi_fee_split fee).2)]) := by
  simp only [multi_build_transaction_with_fee] at h
  cases paid
  all_goals simp only [Bool.false_eq_true, if_false, if_true] at h
  all_goals
    intro T0 T1 q0 q1
    split at h
    · simp at h
    · rename_i hs
      rw [not_or] at hs
      simp only [Prod.mk.injEq, Except.ok.injEq] at h
      obtain ⟨⟨htx, hsel0, hsel1⟩, hm⟩ := h
      exact ⟨hsel0.symm, hsel1.symm, Nat.le_of_not_lt hs.1, Nat.le_of_not_lt hs.2,
        hm.symm, htx.symm⟩

lemma multi_build_error {m : UtxoManager} {addr0 addr1 a0 a1 recv : String}
    {amount0 amount1 fee : Nat} {paid : Bool} {e : Nat × Nat} {m' : UtxoManager}
    (h : multi_build_transaction_with_fee m addr0 addr1 a0 a1 recv amount0 amount1 fee paid
      = (.error e, m')) :
    let T0 := if paid then amount0 + (multi_fee_split fee).1 else amount0
    let T1 := if paid then amount1 + (multi_fee_split fee).2 else amount1
    let q0 := take_until_ge (m.btcPool addr0) T0
    let q1 := take_until_ge ((m.setBtcPool addr0 q0.2.2).btcPool addr1) T1
    (q0.2.1 < T0 ∨ q1.2.1 < T1) ∧ e = (T0, T1) ∧
    m' = (((m.setBtcPool addr0 q0.2.2).setBtcPool addr1 q1.2.2).record_btc_utxos
      addr0 q0.1).record_btc_utxos addr1 q1.1 := by
  simp only [multi_build_transaction_with_fee] at h
  cases paid
  all_goals simp only [Bool.false_eq_true, if_false, if_true] at h
  all_goals
    intro T0 T1 q0 q1
    split at h
    · rename_i hs
      simp only [Prod.mk.injEq, Except.error.injEq] at h
      exact ⟨hs, h.1.symm, h.2.symm⟩
    · simp at h

lemma rune_build_ok {m : UtxoManager} {runeid : RuneId} {amount : Nat}
    {sender_addr receiver_addr sa ra : String} {fee : Nat} {paid : Bool} {postage : Nat}
    {tx : Tx} {rsel : List RunicUtxo} {fsel : List Utxo} {m' : UtxoManager}
    (h : rune_build_transaction_with_fee m runeid amount sender_addr receiver_addr sa ra
      fee paid postage = (.ok (tx, rsel, fsel), m')) :
    let qr := take_runic_until_gt (m.runicPool sender_addr runeid) amount
    let nc := rune_need_change qr.2.1 amount qr.1.length
    let act := wsub64 (rune_required_btc nc postage) qr.2.2.1
    let fp := if paid then sender_addr else receiver_addr
    let m1 := m.setRunicPool sender_addr runeid qr.2.2.2
    let qf := take_until_gt (m1.btcPool fp) (fee + act)
    rsel = qr.1 ∧ fsel = qf.1 ∧ amount ≤ qr.2.1 ∧ fee + act ≤ qf.2.1 ∧
    m' = m1.setBtcPool fp qf.2.2 ∧
    tx = Tx.mk 2 0
      (qr.1.map (fun r => TxIn.mk r.utxo.outpoint 0) ++ qf.1.map (fun u => TxIn.mk u.outpoint 0))
      (if DUST_THRESHOLD < wsub64 (wsub64 qf.2.1 fee) act then
         if paid then
           (if nc then
              [TxOut.mk (Script.runestoneOpReturn runeid amount 2) 0,
               TxOut.mk (Script.p2pkh sa) postage,
               TxOut.mk (Script.p2pkh ra) postage]
            else [TxOut.mk (Script.p2pkh ra) postage]) ++
           [TxOut.mk (Script.p2pkh sa) (wsub64 (wsub64 qf.2.1 fee) act)]
         else
           (if nc then
              [TxOut.mk (Script.runestoneOpReturn runeid amount 2) 0,
               TxOut.mk (Script.p2pkh sa) postage,
               TxOut.mk (Script.p2pkh ra) postage]
            else [TxOut.mk (Script.p2pkh ra) postage]) ++
           [TxOut.mk (Script.p2pkh ra) (wsub64 (wsub64 qf.2.1 fee) act)]
       else
         (if nc then
            [TxOut.mk (Script.runestoneOpReturn runeid amount 2) 0,
             TxOut.mk (Script.p2pkh sa) postage,
             TxOut.mk (Script.p2pkh ra) postage]
          else [TxOut.mk (Script.p2pkh ra) postage])) := by
  simp only [rune_build_transaction_with_fee] at h
  cases paid
  all_goals simp only [Bool.false_eq_true, if_false, if_true] at h
  all_goals
    intro qr nc act fp m1 qf
    split at h
    · simp at h
    · rename_i h1
      split at h
      · simp at h
      · rename_i h2
        simp only [Prod.mk.injEq, Except.ok.injEq] at h
        obtain ⟨⟨htx, hrsel, hfsel⟩, hm⟩ := h
        exact ⟨hrsel.symm, hfsel.symm, Nat.le_of_not_lt h1, Nat.le_of_not_lt h2,
          hm.symm, htx.symm⟩

lemma rune_build_error {m : UtxoManager} {runeid : RuneId} {amount : Nat}
    {sender_addr receiver_addr sa ra : String} {fee : Nat} {paid : Bool} {postage : Nat}
    {e : Nat × Nat} {m' : UtxoManager}
    (h : rune_build_transaction_with_fee m runeid amount sender_addr receiver_addr sa ra
      fee paid postage = (.error e, m')) :
    let qr := take_runic_until_gt (m.runicPool sender_addr runeid) amount
    let nc := rune_need_change qr.2.1 amount qr.1.length
    let act := wsub64 (rune_required_btc nc postage) qr.2.2.1
    let fp := if paid then sender_addr else receiver_addr
    let m1 := m.setRunicPool sender_addr runeid qr.2.2.2
    let qf := take_until_gt (m1.btcPool fp) (fee + act)
    (qr.2.1 < amount ∧ e = (amount, 0) ∧
      m' = m1.record_runic_utxos sender_addr runeid qr.1) ∨
    (amount ≤ qr.2.1 ∧ qf.2.1 < fee + act ∧ e = (0, fee) ∧
      m' = (m1.setBtcPool fp qf.2.2).record_btc_utxos fp qf.1) := by
  simp only [rune_build_transaction_with_fee] at h
  cases paid
  all_goals simp only [Bool.false_eq_true, if_false, if_true] at h
  all_goals
    intro qr nc act fp m1 qf
    split at h
    · rename_i h1
      simp only [Prod.mk.injEq, Except.error.injEq] at h
      exact .inl ⟨h1, h.1.symm, h.2.symm⟩
    · rename_i h1
      split at h
      · rename_i h2
        simp only [Prod.mk.injEq, Except.error.injEq] at h
        exact .inr ⟨Nat.le_of_not_lt h1, h2, h.1.symm, h.2.symm⟩
      · simp at h

lemma combined_build_ok {m : UtxoManager} {from_addr receiver_addr sa ra : String}
    {runeid : RuneId} {rune_amount btc_amount postage fee : Nat} {paid : Bool}
    {tx : Tx} {rsel : List RunicUtxo} {bsel fsel : List Utxo} {m' : UtxoManager}
    (h : combined_build_transaction_with_fee m from_addr receiver_addr sa ra runeid
      rune_amount btc_amount postage fee paid = (.ok (tx, rsel, bsel, fsel), m')) :
    let P := m.runicPool from_addr runeid
    let m1 := m.setRunicPool from_addr runeid []
    let qb := take_until_gt (m1.btcPool from_addr) btc_amount
    let m2 := m1.setBtcPool from_addr qb.2.2
    let nc := rune_need_change (sum_balances P) rune_amount P.length
    let act := wsub64 (rune_required_btc nc postage) (runic_btc P)
    let output0 := if nc then
        [TxOut.mk (Script.runestoneOpReturn runeid rune_amount 2) 0,
         TxOut.mk (Script.p2pkh sa) postage,
         TxOut.mk (Script.p2pkh ra) postage]
      else [TxOut.mk (Script.p2pkh ra) postage]
    let out1 := output0 ++ [TxOut.mk (Script.p2pkh ra) btc_amount]
    rsel = P ∧ bsel = qb.1 ∧ rune_amount ≤ sum_balances P ∧ btc_amount ≤ qb.2.1 ∧
    (paid = true →
      fsel = [] ∧ m' = m2 ∧ ¬ qb.2.1 < wsub64 (wsub64 btc_amount act) fee ∧
      tx = Tx.mk 2 0
        (P.map (fun r => TxIn.mk r.utxo.outpoint 0) ++ qb.1.map (fun u => TxIn.mk u.outpoint 0))
        (if DUST_THRESHOLD < wsub64 (wsub64 (wsub64 qb.2.1 btc_amount) fee) act
           then out1 ++ [TxOut.mk (Script.p2pkh sa)
             (wsub64 (wsub64 (wsub64 qb.2.1 btc_amount) fee) act)]
           else out1)) ∧
    (paid = false →
      let qf := take_until_gt (m2.btcPool receiver_addr) (fee + act)
      fsel = qf.1 ∧ fee + act ≤ qf.2.1 ∧ m' = m2.setBtcPool receiver_addr qf.2.2 ∧
      tx = Tx.mk 2 0
        (P.map (fun r => TxIn.mk r.utxo.outpoint 0) ++ qb.1.map (fun u => TxIn.mk u.outpoint 0)
          ++ qf.1.map (fun u => TxIn.mk u.outpoint 0))
        (if DUST_THRESHOLD < wsub64 (wsub64 qf.2.1 fee) act
           then (if DUST_THRESHOLD < wsub64 qb.2.1 btc_amount
                 then out1 ++ [TxOut.mk (Script.p2pkh sa) (wsub64 qb.2.1 btc_amount)]
                 else out1) ++
                [TxOut.mk (Script.p2pkh ra) (wsub64 (wsub64 qf.2.1 fee) act)]
           else (if DUST_THRESHOLD < wsub64 qb.2.1 btc_amount
                 then out1 ++ [TxOut.mk (Script.p2pkh sa) (wsub64 qb.2.1 btc_amount)]
                 else out1))) := by
  simp only [combined_build_transaction_with_fee] at h
  cases paid
  all_goals simp only [Bool.false_eq_true, if_false, if_true] at h
  · intro P m1 qb m2 nc act output0 out1
    split at h
    · simp at h
    · rename_i h1
      split at h
      · simp at h
      · rename_i h2
        split at h
        · simp at h
        · rename_i h3
          simp only [Prod.mk.injEq, Except.ok.injEq] at h
          obtain ⟨⟨htx, hr, hb, hf⟩, hm⟩ := h
          refine ⟨hr.symm, hb.symm, Nat.le_of_not_lt h1, Nat.le_of_not_lt h2, ?_, ?_⟩
          · intro hh
            exact absurd hh (by simp)
          · intro _
            exact ⟨hf.symm, Nat.le_of_not_lt h3, hm.symm, htx.symm⟩
  · intro P m1 qb m2 nc act output0 out1
    split at h
    · simp at h
    · rename_i h1
      split at h
      · simp at h
      · rename_i h2
        split at h
        · simp at h
        · rename_i h3
          simp only [Prod.mk.injEq, Except.ok.injEq] at h
          obtain ⟨⟨htx, hr, hb, hf⟩, hm⟩ := h
          refine ⟨hr.symm, hb.symm, Nat.le_of_not_lt h1, Nat.le_of_not_lt h2, ?_, ?_⟩
          · intro _
            exact ⟨hf.symm, hm.symm, h3, htx.symm⟩
          · intro hh
            exact absurd hh (by simp)

lemma combined_build_error {m : UtxoManager} {from_addr receiver_addr sa ra : String}
    {runeid : RuneId} {rune_amount btc_amount postage fee : Nat} {paid : Bool}
    {e : Nat × Nat × Nat} {m' : UtxoManager}
    (h : combined_build_transaction_with_fee m from_addr receiver_addr sa ra runeid
      rune_amount btc_amount postage fee paid = (.error e, m')) :
    let P := m.runicPool from_addr runeid
    let m1 := m.setRunicPool from_addr runeid []
    let qb := take_until_gt (m1.btcPool from_addr) btc_amount
    let m2 := m1.setBtcPool from_addr qb.2.2
    let nc := rune_need_change (sum_balances P) rune_amount P.length
    let act := wsub64 (rune_required_btc nc postage) (runic_btc P)
    let qf := take_until_gt (m2.btcPool receiver_addr) (fee + act)
    (sum_balances P < rune_amount ∧ m' = m1.record_runic_utxos from_addr runeid P) ∨
    (rune_amount ≤ sum_balances P ∧ qb.2.1 < btc_amount ∧
      m' = m2.record_btc_utxos from_addr qb.1) ∨
    (rune_amount ≤ sum_balances P ∧ btc_amount ≤ qb.2.1 ∧ paid = true ∧
      qb.2.1 < wsub64 (wsub64 btc_amount act) fee ∧ m' = m2) ∨
    (rune_amount ≤ sum_balances P ∧ btc_amount ≤ qb.2.1 ∧ paid = false ∧
      qf.2.1 < fee + act ∧
      m' = (m2.setBtcPool receiver_addr qf.2.2).record_btc_utxos receiver_addr qf.1) := by
  simp only [combined_build_transaction_with_fee] at h
  cases paid
  all_goals simp only [Bool.false_eq_true, if_false, if_true] at h
  · intro P m1 qb m2 nc act qf
    split at h
    · rename_i h1
      simp only [Prod.mk.injEq, Except.error.injEq] at h
      exact .inl ⟨h1, h.2.symm⟩
    · rename_i h1
      split at h
      · rename_i h2
        simp only [Prod.mk.injEq, Except.error.injEq] at h
        exact .inr (.inl ⟨Nat.le_of_not_lt h1, h2, h.2.symm⟩)
      · rename_i h2
        split at h
        · rename_i h3
          simp only [Prod.mk.injEq, Except.error.injEq] at h
          exact .inr (.inr (.inr ⟨Nat.le_of_not_lt h1, Nat.le_of_not_lt h2, rfl, h3,
            h.2.symm⟩))
        · simp at h
  · intro P m1 qb m2 nc act qf
    split at h
    · rename_i h1
      simp only [Prod.mk.injEq, Except.error.injEq] at h
      exact .inl ⟨h1, h.2.symm⟩
    · rename_i h1
      split at h
      · rename_i h2
        simp only [Prod.mk.injEq, Except.error.injEq] at h
        exact .inr (.inl ⟨Nat.le_of_not_lt h1, h2, h.2.symm⟩)
      · rename_i h2
        split at h
        · rename_i h3
          simp only [Prod.mk.injEq, Except.error.injEq] at h
          exact .inr (.inr (.inl ⟨Nat.le_of_not_lt h1, Nat.le_of_not_lt h2, rfl, h3,
            h.2.symm⟩))
        · simp at h

lemma btc_transfer_ok {addr sa ta : String} {amount rate : Nat} {paid : Bool} :
    ∀ {fuel : Nat} {m : UtxoManager} {fee0 : Nat} {r : BitcoinTxnType} {m2 : UtxoManager},
    btc_transfer addr sa ta amount paid rate fuel m fee0 = some (.ok r, m2) →
    ∃ mIter, btc_build_transaction_with_fee mIter addr sa ta amount r.fee paid
        = (.ok (r.txn, r.utxos), m2) ∧
      wmul64 (tx_size (mock_signature r.txn)) rate / 1000 = r.fee ∧
      r.addr = addr ∧ r.signer_address = sa := by
  intro fuel
  induction fuel with
  | zero =>
    intro m fee0 r m2 h
    simp [btc_transfer] at h
  | succ n ih =>
    intro m fee0 r m2 h
    simp only [btc_transfer] at h
    split at h
    · simp at h
    · rename_i txn utxos m' harm
      split at h
      · rename_i hguard
        simp only [Option.some.injEq, Prod.mk.injEq, Except.ok.injEq] at h
        obtain ⟨hr, hm2⟩ := h
        subst hr
        subst hm2
        exact ⟨m, harm, hguard, rfl, rfl⟩
      · exact ih h

lemma multi_transfer_ok {addr0 addr1 a0 a1 recv : String} {amount0 amount1 rate : Nat}
    {paid : Bool} :
    ∀ {fuel : Nat} {m : UtxoManager} {fee0 : Nat} {r : LegoBitcoinTxnType} {m2 : UtxoManager},
    multi_transfer addr0 addr1 a0 a1 recv amount0 amount1 rate paid fuel m fee0
      = some (.ok r, m2) →
    ∃ mIter, multi_build_transaction_with_fee mIter addr0 addr1 a0 a1 recv amount0 amount1
        r.fee paid = (.ok (r.txn, r.utxos0, r.utxos1), m2) ∧
      wmul64 (tx_size (mock_signature r.txn)) rate / 1000 = r.fee ∧
      r.addr0 = addr0 ∧ r.addr1 = addr1 ∧ r.address0 = a0 ∧ r.address1 = a1 ∧
      r.amount0 = amount0 ∧ r.amount1 = amount1 ∧ r.paid_by_sender = paid ∧
      r.receiver = recv := by
  intro fuel
  induction fuel with
  | zero =>
    intro m fee0 r m2 h
    simp [multi_transfer] at h
  | succ n ih =>
    intro m fee0 r m2 h
    simp only [multi_transfer] at h
    split at h
    · simp at h
    · rename_i txn utxos0 utxos1 m' harm
      split at h
      · rename_i hguard
        simp only [Option.some.injEq, Prod.mk.injEq, Except.ok.injEq] at h
        obtain ⟨hr, hm2⟩ := h
        subst hr
        subst hm2
        exact ⟨m, harm, hguard, rfl, rfl, rfl, rfl, rfl, rfl, rfl, rfl⟩
      · exact ih h

lemma rune_transfer_ok {runeid : RuneId} {amount : Nat}
    {sender_addr receiver_addr sa ra : String} {rate : Nat} {paid : Bool}
    {postage_arg : Option Nat} :
    ∀ {fuel : Nat} {m : UtxoManager} {fee0 : Nat} {r : RunestoneTxnType} {m2 : UtxoManager},
    rune_transfer runeid amount sender_addr receiver_addr sa ra rate paid postage_arg
      fuel m fee0 = some (.ok r, m2) →
    ∃ mIter, rune_build_transaction_with_fee mIter runeid amount sender_addr receiver_addr
        sa ra r.fee paid (postage_arg.getD DEFAULT_POSTAGE)
        = (.ok (r.txn, r.runic_utxos, r.fee_utxos), m2) ∧
      wmul64 (tx_size (mock_signature r.txn)) rate / 1000 = r.fee ∧
      r.sender_addr = sender_addr ∧ r.receiver_addr = receiver_addr ∧
      r.runeid = runeid ∧ r.amount = amount ∧ r.paid_by_sender = paid ∧
      r.sender_address = sa ∧ r.receiver_address = ra ∧
      r.postage = postage_arg.getD DEFAULT_POSTAGE := by
  intro fuel
  induction fuel with
  | zero =>
    intro m fee0 r m2 h
    simp [rune_transfer] at h
  | succ n ih =>
    intro m fee0 r m2 h
    simp only [rune_transfer] at h
    split at h
    · simp at h
    · rename_i txn rsel fsel m' harm
      split at h
      · rename_i hguard
        simp only [Option.some.injEq, Prod.mk.injEq, Except.ok.injEq] at h
        obtain ⟨hr, hm2⟩ := h
        subst hr
        subst hm2
        exact ⟨m, harm, hguard, rfl, rfl, rfl, rfl, rfl, rfl, rfl, rfl⟩
      · exact ih h

lemma combined_transfer_ok {from_addr receiver_addr sa ra : String} {runeid : RuneId}
    {rune_amount btc_amount : Nat} {postage_arg : Option Nat} {rate : Nat} {paid : Bool} :
    ∀ {fuel : Nat} {m : UtxoManager} {fee0 : Nat} {r : CombinedTxnType} {m2 : UtxoManager},
    combined_transfer from_addr receiver_addr sa ra runeid rune_amount btc_amount
      postage_arg rate paid fuel m fee0 = some (.ok r, m2) →
    ∃ mIter, combined_build_transaction_with_fee mIter from_addr receiver_addr sa ra runeid
        rune_amount btc_amount (postage_arg.getD DEFAULT_POSTAGE) r.fee paid
        = (.ok (r.txn, r.runic_utxos, r.btc_utxos, r.fee_utxos), m2) ∧
      wmul64 (tx_size (mock_signature r.txn)) rate / 1000 = r.fee ∧
      r.sender_addr = from_addr ∧ r.receiver_addr = receiver_addr ∧
      r.sender_address = sa ∧ r.receiver_address = ra ∧ r.runeid = runeid ∧
      r.rune_amount = rune_amount ∧ r.btc_amount = btc_amount ∧ r.paid_by_sender = paid ∧
      r.postage = postage_arg.getD DEFAULT_POSTAGE := by
  intro fuel
  induction fuel with
  | zero =>
    intro m fee0 r m2 h
    simp [combined_transfer] at h
  | succ n ih =>
    intro m fee0 r m2 h
    simp only [combined_transfer] at h
    split at h
    · simp at h
    · rename_i txn rsel bsel fsel m' harm
      split at h
      · rename_i hguard
        simp only [Option.some.injEq, Prod.mk.injEq, Except.ok.injEq] at h
        obtain ⟨hr, hm2⟩ := h
        subst hr
        subst hm2
        exact ⟨m, harm, hguard, rfl, rfl, rfl, rfl, rfl, rfl, rfl, rfl, rfl⟩
      · exact ih h

/-- A concrete manager for exercising the plain-send loop: the sender holds a
single 200 000-sat UTXO. -/
def wm_btc : UtxoManager := ⟨[("s", [⟨⟨1, 0⟩, 200000⟩])], []⟩

/-- The rune id of the witness scenarios. -/
def wrid : RuneId := ⟨840000, 1⟩

/-- A concrete manager for the rune-transfer loop: two runic UTXOs with
balances 100 and 150 (546 sats each) and one 50 000-sat plain UTXO. -/
def wm_rune : UtxoManager :=
  ⟨[("s", [⟨⟨9, 0⟩, 50000⟩])],
   [(("s", wrid), [⟨⟨⟨2, 0⟩, 546⟩, 100⟩, ⟨⟨⟨3, 0⟩, 546⟩, 150⟩])]⟩

/-- A concrete manager for the two-sender loop: 60 000 sats at "p" and
70 000 sats at "q". -/
def wm_multi : UtxoManager := ⟨[("p", [⟨⟨4, 0⟩, 60000⟩]), ("q", [⟨⟨5, 0⟩, 70000⟩])], []⟩

/-- A concrete manager for the combined loop: one runic UTXO (balance 100,
546 sats), 30 000 plain sats at the sender and 40 000 at the receiver. -/
def wm_combined : UtxoManager :=
  ⟨[("s", [⟨⟨6, 0⟩, 30000⟩]), ("r", [⟨⟨7, 0⟩, 40000⟩])],
   [(("s", wrid), [⟨⟨⟨8, 0⟩, 546⟩, 100⟩])]⟩

/-- A single 50 000-sat UTXO for exhibiting the fee-product wrap: at fee
rate 96 076 792 050 570 582 the u64 product `192 * rate` wraps to 128. -/
def wm_c1 : UtxoManager := ⟨[("s", [⟨⟨10, 0⟩, 50000⟩])], []⟩

/-- The converged result of the wrap-rate run on `wm_c1`. -/
def w_r_c1 : BitcoinTxnType :=
  ⟨"s", [⟨⟨10, 0⟩, 50000⟩], "s", ⟨2, 0, [⟨⟨10, 0⟩, 0⟩], [⟨.p2pkh "r", 50000⟩]⟩, 0⟩

/-- Counterexample to C1: the loop's `txn_vsize * fee_per_vbytes` is a u64
product that wraps in release builds, and the fee rate is caller-supplied.
At rate 96 076 792 050 570 582, a 1-input/1-output send (vsize 192) has
`192 * rate = 2^64 + 128`, so the wrapped recomputed fee is `128 / 1000 = 0`:
the loop converges at once and returns fee 0, while the true
`floor(vsize * rate / 1000)` is 18 446 744 073 709 551. -/
theorem c1_fee_wrap_counterexample :
    btc_transfer "s" "s" "r" 50000 true 96076792050570582 1 wm_c1 0
      = some (.ok w_r_c1, ⟨[("s", [])], []⟩) ∧
    w_r_c1.fee = 0 ∧
    tx_size (mock_signature w_r_c1.txn) * 96076792050570582 / 1000
      = 18446744073709551 ∧
    ¬ w_r_c1.fee = tx_size (mock_signature w_r_c1.txn) * 96076792050570582 / 1000 :=
  ⟨rfl, rfl, rfl, by decide⟩

lemma wmul64_of_lt {a b : Nat} (h : a * b < 18446744073709551616) : wmul64 a b = a * b :=
  Nat.mod_eq_of_lt h

/-- C1 (amended): for every successful build of any of the four transaction
shapes, the fee returned with the transaction equals
`floor((vsize(mock_signed_tx) * fee_rate mod 2^64) / 1000)` — the
recomputation uses the wrapping u64 product — and therefore equals
`floor(vsize(mock_signed_tx) * fee_rate / 1000)` exactly when that product
fits in u64; at larger caller-supplied rates the product wraps and the
returned fee undershoots (see the counterexample). -/
theorem c1_fee_wrapped_fixed_point :
    (∀ (addr sa ta : String) (amount rate : Nat) (paid : Bool) (fuel : Nat)
      (m : UtxoManager) (fee0 : Nat) (r : BitcoinTxnType) (m2 : UtxoManager),
      btc_transfer addr sa ta amount paid rate fuel m fee0 = some (.ok r, m2) →
      r.fee = wmul64 (tx_size (mock_signature r.txn)) rate / 1000 ∧
      (tx_size (mock_signature r.txn) * rate < 18446744073709551616 →
        r.fee = tx_size (mock_signature r.txn) * rate / 1000)) ∧
    (∀ (addr0 addr1 a0 a1 recv : String) (amount0 amount1 rate : Nat) (paid : Bool)
      (fuel : Nat) (m : UtxoManager) (fee0 : Nat) (r : LegoBitcoinTxnType) (m2 : UtxoManager),
      multi_transfer addr0 addr1 a0 a1 recv amount0 amount1 rate paid fuel m fee0
        = some (.ok r, m2) →
      r.fee = wmul64 (tx_size (mock_signature r.txn)) rate / 1000 ∧
      (tx_size (mock_signature r.txn) * rate < 18446744073709551616 →
        r.fee = tx_size (mock_signature r.txn) * rate / 1000)) ∧
    (∀ (runeid : RuneId) (amount : Nat) (sender_addr receiver_addr sa ra : String)
      (rate : Nat) (paid : Bool) (postage_arg : Option Nat) (fuel : Nat)
      (m : UtxoManager) (fee0 : Nat) (r : RunestoneTxnType) (m2 : UtxoManager),
      rune_transfer runeid amount sender_addr receiver_addr sa ra rate paid postage_arg
        fuel m fee0 = some (.ok r, m2) →
      r.fee = wmul64 (tx_size (mock_signature r.txn)) rate / 1000 ∧
      (tx_size (mock_signature r.txn) * rate < 18446744073709551616 →
        r.fee = tx_size (mock_signature r.txn) * rate / 1000)) ∧
    (∀ (from_addr receiver_addr sa ra : String) (runeid : RuneId)
      (rune_amount btc_amount : Nat) (postage_arg : Option Nat) (rate : Nat) (paid : Bool)
      (fuel : Nat) (m : UtxoManager) (fee0 : Nat) (r : CombinedTxnType) (m2 : UtxoManager),
      combined_transfer from_addr receiver_addr sa ra runeid rune_amount btc_amount
        postage_arg rate paid fuel m fee0 = some (.ok r, m2) →
      r.fee = wmul64 (tx_size (mock_signature r.txn)) rate / 1000 ∧
      (tx_size (mock_signature r.txn) * rate < 18446744073709551616 →
        r.fee = tx_size (mock_signature r.txn) * rate / 1000)) := by
  refine ⟨?_, ?_, ?_, ?_⟩
  · intro addr sa ta amount rate paid fuel m fee0 r m2 h
    obtain ⟨mIter, _, hguard, _⟩ := btc_transfer_ok h
    exact ⟨hguard.symm, fun hlt => by rw [← hguard, wmul64_of_lt hlt]⟩
  · intro addr0 addr1 a0 a1 recv amount0 amount1 rate paid fuel m fee0 r m2 h
    obtain ⟨mIter, _, hguard, _⟩ := multi_transfer_ok h
    exact ⟨hguard.symm, fun hlt => by rw [← hguard, wmul64_of_lt hlt]⟩
  · intro runeid amount sender_addr receiver_addr sa ra rate paid postage_arg fuel m fee0 r m2 h
    obtain ⟨mIter, _, hguard, _⟩ := rune_transfer_ok h
    exact ⟨hguard.symm, fun hlt => by rw [← hguard, wmul64_of_lt hlt]⟩
  · intro from_addr receiver_addr sa ra runeid rune_amount btc_amount postage_arg rate paid
      fuel m fee0 r m2 h
    obtain ⟨mIter, _, hguard, _⟩ := combined_transfer_ok h
    exact ⟨hguard.symm, fun hlt => by rw [← hguard, wmul64_of_lt hlt]⟩

/-- Manager state after the plain witness run. -/
def wn1 : UtxoManager := ⟨[("s", [])], []⟩

/-- The plain-send result of the witness run on `wm_btc`. -/
def w_r1 : BitcoinTxnType :=
  ⟨"s", [⟨⟨1, 0⟩, 200000⟩], "s",
   ⟨2, 0, [⟨⟨1, 0⟩, 0⟩], [⟨.p2pkh "r", 50000⟩, ⟨.p2pkh "s", 149774⟩]⟩, 226⟩

/-- Manager state after the two-sender witness run. -/
def wn2 : UtxoManager := ⟨[("p", []), ("q", [])], []⟩

/-- The two-sender result of the witness run on `wm_multi`. -/
def w_r2 : LegoBitcoinTxnType :=
  ⟨"p", "q", "p", "q", [⟨⟨4, 0⟩, 60000⟩], [⟨⟨5, 0⟩, 70000⟩], 51, 50, 408, true, "r",
   ⟨2, 0, [⟨⟨4, 0⟩, 0⟩, ⟨⟨5, 0⟩, 0⟩],
    [⟨.p2pkh "r", 101⟩, ⟨.p2pkh "p", 59745⟩, ⟨.p2pkh "q", 69746⟩]⟩⟩

/-- Manager state after the rune witness run. -/
def wn3 : UtxoManager := ⟨[("s", [])], [(("s", wrid), [])]⟩

/-- The rune-transfer result of the witness run on `wm_rune`. -/
def w_r3 : RunestoneTxnType :=
  ⟨"s", "r", wrid, 200, 576, [⟨⟨⟨2, 0⟩, 546⟩, 100⟩, ⟨⟨⟨3, 0⟩, 546⟩, 150⟩],
   [⟨⟨9, 0⟩, 50000⟩], true, "s", "r", 10000,
   ⟨2, 0, [⟨⟨2, 0⟩, 0⟩, ⟨⟨3, 0⟩, 0⟩, ⟨⟨9, 0⟩, 0⟩],
    [⟨.runestoneOpReturn wrid 200 2, 0⟩, ⟨.p2pkh "s", 10000⟩, ⟨.p2pkh "r", 10000⟩,
     ⟨.p2pkh "s", 30516⟩]⟩⟩

/-- Manager state after the combined witness run. -/
def wn4 : UtxoManager := ⟨[("s", []), ("r", [])], [(("s", wrid), [])]⟩

/-- The combined-transfer result of the witness run on `wm_combined`. -/
def w_r4 : CombinedTxnType :=
  ⟨"s", "r", "s", "r", [⟨⟨⟨8, 0⟩, 546⟩, 100⟩], [⟨⟨6, 0⟩, 30000⟩], [⟨⟨7, 0⟩, 40000⟩],
   wrid, 50, 25000, 643, 10000, false,
   ⟨2, 0, [⟨⟨8, 0⟩, 0⟩, ⟨⟨6, 0⟩, 0⟩, ⟨⟨7, 0⟩, 0⟩],
    [⟨.runestoneOpReturn wrid 50 2, 0⟩, ⟨.p2pkh "s", 10000⟩, ⟨.p2pkh "r", 10000⟩,
     ⟨.p2pkh "r", 25000⟩, ⟨.p2pkh "s", 5000⟩, ⟨.p2pkh "r", 19903⟩]⟩⟩

set_option maxRecDepth 8000 in
/-- Witness for C1: each of the four loops converges on a concrete manager
at rate 1000 (product far below 2^64), and the returned fee equals both the
wrapped and the unwrapped recomputed mock-signed-vsize fee. -/
theorem c1_fee_wrapped_fixed_point_witness :
    (btc_transfer "s" "s" "r" 50000 true 1000 3 wm_btc 0 = some (.ok w_r1, wn1) ∧
      w_r1.fee = wmul64 (tx_size (mock_signature w_r1.txn)) 1000 / 1000 ∧
      w_r1.fee = tx_size (mock_signature w_r1.txn) * 1000 / 1000) ∧
    (multi_transfer "p" "q" "p" "q" "r" 51 50 1000 true 3 wm_multi 0 = some (.ok w_r2, wn2) ∧
      w_r2.fee = wmul64 (tx_size (mock_signature w_r2.txn)) 1000 / 1000 ∧
      w_r2.fee = tx_size (mock_signature w_r2.txn) * 1000 / 1000) ∧
    (rune_transfer wrid 200 "s" "r" "s" "r" 1000 true none 3 wm_rune 0
        = some (.ok w_r3, wn3) ∧
      w_r3.fee = wmul64 (tx_size (mock_signature w_r3.txn)) 1000 / 1000 ∧
      w_r3.fee = tx_size (mock_signature w_r3.txn) * 1000 / 1000) ∧
    (combined_transfer "s" "r" "s" "r" wrid 50 25000 none 1000 false 3 wm_combined 0
        = some (.ok w_r4, wn4) ∧
      w_r4.fee = wmul64 (tx_size (mock_signature w_r4.txn)) 1000 / 1000 ∧
      w_r4.fee = tx_size (mock_signature w_r4.txn) * 1000 / 1000) := by
  have h1 : btc_transfer "s" "s" "r" 50000 true 1000 3 wm_btc 0 = some (.ok w_r1, wn1) := rfl
  have h2 : multi_transfer "p" "q" "p" "q" "r" 51 50 1000 true 3 wm_multi 0
      = some (.ok w_r2, wn2) := rfl
  have h3 : rune_transfer wrid 200 "s" "r" "s" "r" 1000 true none 3 wm_rune 0
      = some (.ok w_r3, wn3) := rfl
  have h4 : combined_transfer "s" "r" "s" "r" wrid 50 25000 none 1000 false 3 wm_combined 0
      = some (.ok w_r4, wn4) := rfl
  exact ⟨⟨h1, (c1_fee_wrapped_fixed_point.1 _ _ _ _ _ _ _ _ _ _ _ h1).1,
      (c1_fee_wrapped_fixed_point.1 _ _ _ _ _ _ _ _ _ _ _ h1).2 (by decide)⟩,
    ⟨h2, (c1_fee_wrapped_fixed_point.2.1 _ _ _ _ _ _ _ _ _ _ _ _ _ _ h2).1,
      (c1_fee_wrapped_fixed_point.2.1 _ _ _ _ _ _ _ _ _ _ _ _ _ _ h2).2 (by decide)⟩,
    ⟨h3, (c1_fee_wrapped_fixed_point.2.2.1 _ _ _ _ _ _ _ _ _ _ _ _ _ _ h3).1,
      (c1_fee_wrapped_fixed_point.2.2.1 _ _ _ _ _ _ _ _ _ _ _ _ _ _ h3).2 (by decide)⟩,
    ⟨h4, (c1_fee_wrapped_fixed_point.2.2.2 _ _ _ _ _ _ _ _ _ _ _ _ _ _ _ h4).1,
      (c1_fee_wrapped_fixed_point.2.2.2 _ _ _ _ _ _ _ _ _ _ _ _ _ _ _ h4).2 (by decide)⟩⟩

/-- The oscillation state for the fee loop: the sender holds a single
73 200-sat UTXO. -/
def wm_osc : UtxoManager := ⟨[("s", [⟨⟨1, 0⟩, 73200⟩])], []⟩

set_option maxRecDepth 8000 in
/-- On `wm_osc` with amount 50 000, sender-paid fee and fee rate 100 000, one
step of the plain-send loop maps assumed fee 0 to 22 600, 22 600 to 19 200
and 19 200 back to 22 600 (each restart also restores the manager), so the
loop never reaches a fixed point for any amount of fuel. -/
lemma btc_transfer_osc_aux (n : Nat) :
    btc_transfer "s" "s" "r" 50000 true 100000 n wm_osc 0 = none ∧
    btc_transfer "s" "s" "r" 50000 true 100000 n wm_osc 22600 = none ∧
    btc_transfer "s" "s" "r" 50000 true 100000 n wm_osc 19200 = none := by
  induction n with
  | zero => exact ⟨rfl, rfl, rfl⟩
  | succ k ih =>
    have e0 : btc_transfer "s" "s" "r" 50000 true 100000 (k + 1) wm_osc 0
        = btc_transfer "s" "s" "r" 50000 true 100000 k wm_osc 22600 := rfl
    have e1 : btc_transfer "s" "s" "r" 50000 true 100000 (k + 1) wm_osc 22600
        = btc_transfer "s" "s" "r" 50000 true 100000 k wm_osc 19200 := rfl
    have e2 : btc_transfer "s" "s" "r" 50000 true 100000 (k + 1) wm_osc 19200
        = btc_transfer "s" "s" "r" 50000 true 100000 k wm_osc 22600 := rfl
    exact ⟨e0.trans ih.2.1, e1.trans ih.2.2, e2.trans ih.2.1⟩

/-- C8: the claim states that the fee-converging loop always terminates.  It
does not: on a manager whose sender pool holds a single 73 200-sat UTXO, a
plain send of 50 000 sats with sender-paid fee at fee rate 100 000 makes the
loop oscillate forever — with fee 19 200 the 4 000-sat remainder is above the
dust threshold, the change output makes the mock-signed vsize 226 and the
recomputed fee 22 600; with fee 22 600 the 600-sat remainder is dropped, the
vsize falls to 192 and the recomputed fee is 19 200 again.  For every fuel
bound the loop is still running (`none`), i.e. the Rust `loop` never
returns. -/
theorem c8_fee_loop_divergence (fuel : Nat) :
    btc_transfer "s" "s" "r" 50000 true 100000 fuel wm_osc 0 = none :=
  (btc_transfer_osc_aux fuel).1

/-- A sender pool with one 2 000-sat UTXO for the dust counterexample. -/
def wm_dust : UtxoManager := ⟨[("s", [⟨⟨1, 0⟩, 2000⟩])], []⟩

/-- The plain-send result of sending 500 sats out of `wm_dust` at fee rate 0:
the receiver output itself is a 500-sat dust output. -/
def w_r_dust : BitcoinTxnType :=
  ⟨"s", [⟨⟨1, 0⟩, 2000⟩], "s",
   ⟨2, 0, [⟨⟨1, 0⟩, 0⟩], [⟨.p2pkh "r", 500⟩, ⟨.p2pkh "s", 1500⟩]⟩, 0⟩

set_option maxRecDepth 8000 in
/-- Counterexample to C4: a successful plain-send build (amount 500 sats,
fee rate 0) returns a transaction containing an output whose value 500 is
strictly between 0 and 1000 — the receiver output is not dust-gated, only
candidate change outputs are. -/
theorem c4_dust_counterexample :
    btc_transfer "s" "s" "r" 500 true 0 3 wm_dust 0 = some (.ok w_r_dust, ⟨[("s", [])], []⟩) ∧
    ∃ o ∈ w_r_dust.txn.outputs, 0 < o.value ∧ o.value < 1000 :=
  ⟨rfl, ⟨.p2pkh "r", 500⟩, by decide, by decide⟩

/-- C4 (amended): candidate change outputs are dust-gated — in every
transaction returned by one of the four builders, every output after the
mandatory payment outputs (the receiver output for the Bitcoin shapes; the
optional Runestone OP_RETURN and the postage outputs, plus the BTC payment
output for the combined shape) has value strictly greater than the 1000-sat
dust threshold; a candidate change output at or below the threshold is
dropped and its value absorbed into the fee.  The payment outputs themselves
are not dust-gated (see the counterexample). -/
theorem c4_change_dust_gate :
    (∀ (addr sa ta : String) (amount rate : Nat) (paid : Bool) (fuel : Nat)
      (m : UtxoManager) (fee0 : Nat) (r : BitcoinTxnType) (m2 : UtxoManager),
      btc_transfer addr sa ta amount paid rate fuel m fee0 = some (.ok r, m2) →
      ∀ o ∈ r.txn.outputs.drop 1, DUST_THRESHOLD < o.value) ∧
    (∀ (addr0 addr1 a0 a1 recv : String) (amount0 amount1 rate : Nat) (paid : Bool)
      (fuel : Nat) (m : UtxoManager) (fee0 : Nat) (r : LegoBitcoinTxnType) (m2 : UtxoManager),
      multi_transfer addr0 addr1 a0 a1 recv amount0 amount1 rate paid fuel m fee0
        = some (.ok r, m2) →
      ∀ o ∈ r.txn.outputs.drop 1, DUST_THRESHOLD < o.value) ∧
    (∀ (runeid : RuneId) (amount : Nat) (sender_addr receiver_addr sa ra : String)
      (rate : Nat) (paid : Bool) (postage_arg : Option Nat) (fuel : Nat)
      (m : UtxoManager) (fee0 : Nat) (r : RunestoneTxnType) (m2 : UtxoManager),
      rune_transfer runeid amount sender_addr receiver_addr sa ra rate paid postage_arg
        fuel m fee0 = some (.ok r, m2) →
      ∀ o ∈ r.txn.outputs.drop
        (if rune_need_change (sum_balances r.runic_utxos) r.amount r.runic_utxos.length
         then 3 else 1),
      DUST_THRESHOLD < o.value) ∧
    (∀ (from_addr receiver_addr sa ra : String) (runeid : RuneId)
      (rune_amount btc_amount : Nat) (postage_arg : Option Nat) (rate : Nat) (paid : Bool)
      (fuel : Nat) (m : UtxoManager) (fee0 : Nat) (r : CombinedTxnType) (m2 : UtxoManager),
      combined_transfer from_addr receiver_addr sa ra runeid rune_amount btc_amount
        postage_arg rate paid fuel m fee0 = some (.ok r, m2) →
      ∀ o ∈ r.txn.outputs.drop
        ((if rune_need_change (sum_balances r.runic_utxos) r.rune_amount r.runic_utxos.length
          then 3 else 1) + 1),
      DUST_THRESHOLD < o.value) := by
  refine ⟨?_, ?_, ?_, ?_⟩
  · intro addr sa ta amount rate paid fuel m fee0 r m2 h
    obtain ⟨mI, hbuild, _, _⟩ := btc_transfer_ok h
    obtain ⟨hsel, hge, hm, htx⟩ := btc_build_ok hbuild
    intro o ho
    rw [htx] at ho
    set T := if paid = true then amount + r.fee else amount with hT
    set q := take_until_gt (mI.btcPool addr) T with hq
    by_cases hd : DUST_THRESHOLD < q.2.1 - T
    · simp only [if_pos hd] at ho
      simp at ho
      subst ho
      exact hd
    · simp only [if_neg hd] at ho
      simp at ho
  · intro addr0 addr1 a0 a1 recv amount0 amount1 rate paid fuel m fee0 r m2 h
    obtain ⟨mI, hbuild, _, _⟩ := multi_transfer_ok h
    obtain ⟨hsel0, hsel1, hge0, hge1, hm, htx⟩ := multi_build_ok hbuild
    intro o ho
    rw [htx] at ho
    set T0 := if paid = true then amount0 + (multi_fee_split r.fee).1 else amount0 with hT0
    set T1 := if paid = true then amount1 + (multi_fee_split r.fee).2 else amount1 with hT1
    set q0 := take_until_ge (mI.btcPool addr0) T0 with hq0
    set q1 := take_until_ge ((mI.setBtcPool addr0 q0.2.2).btcPool addr1) T1 with hq1
    by_cases hd1 : DUST_THRESHOLD < q1.2.1 - T1
    · simp only [if_pos hd1] at ho
      by_cases hd0 : DUST_THRESHOLD < q0.2.1 - T0
      · simp only [if_pos hd0] at ho
        simp at ho
        rcases ho with rfl | rfl
        · exact hd0
        · exact hd1
      · simp only [if_neg hd0] at ho
        simp at ho
        subst ho
        exact hd1
    · simp only [if_neg hd1] at ho
      by_cases hd0 : DUST_THRESHOLD < q0.2.1 - T0
      · simp only [if_pos hd0] at ho
        simp at ho
        subst ho
        exact hd0
      · simp only [if_neg hd0] at ho
        simp at ho
  · intro runeid amount sender_addr receiver_addr sa ra rate paid postage_arg fuel m fee0
      r m2 h
    obtain ⟨mI, hbuild, _, _, _, _, hamount, _, _, _, _⟩ := rune_transfer_ok h
    obtain ⟨hrsel, hfsel, hge, hfge, hm, htx⟩ := rune_build_ok hbuild
    intro o ho
    rw [htx, hamount, hrsel, ← take_runic_until_gt_sum] at ho
    set qr := take_runic_until_gt (mI.runicPool sender_addr runeid) amount with hqr
    set nc := rune_need_change qr.2.1 amount qr.1.length with hnc0
    set postg := postage_arg.getD DEFAULT_POSTAGE with hpo
    set act := wsub64 (rune_required_btc nc postg) qr.2.2.1 with hact
    set fp := if paid = true then sender_addr else receiver_addr with hfp
    set qf := take_until_gt ((mI.setRunicPool sender_addr runeid qr.2.2.2).btcPool fp)
      (r.fee + act) with hqf
    set rem := wsub64 (wsub64 qf.2.1 r.fee) act with hrem
    by_cases hnc : nc = true
    · simp only [if_pos hnc] at ho
      by_cases hd : DUST_THRESHOLD < rem
      · simp only [if_pos hd] at ho
        by_cases hp : paid = true
        · simp only [if_pos hp] at ho
          simp at ho
          subst ho
          exact hd
        · simp only [if_neg hp] at ho
          simp at ho
          subst ho
          exact hd
      · simp only [if_neg hd] at ho
        simp at ho
    · simp only [if_neg hnc] at ho
      by_cases hd : DUST_THRESHOLD < rem
      · simp only [if_pos hd] at ho
        by_cases hp : paid = true
        · simp only [if_pos hp] at ho
          simp at ho
          subst ho
          exact hd
        · simp only [if_neg hp] at ho
          simp at ho
          subst ho
          exact hd
      · simp only [if_neg hd] at ho
        simp at ho
  · intro from_addr receiver_addr sa ra runeid rune_amount btc_amount postage_arg rate paid
      fuel m fee0 r m2 h
    obtain ⟨mI, hbuild, _, _, _, _, _, _, hra, _, _, _⟩ := combined_transfer_ok h
    obtain ⟨hrsel, hbsel, hge, hbge, hptrue, hpfalse⟩ := combined_build_ok hbuild
    intro o ho
    cases paid with
    | true =>
      obtain ⟨hfsel, hm, hnu, htx⟩ := hptrue rfl
      rw [htx, hra, hrsel] at ho
      set P := mI.runicPool from_addr runeid with hP
      set nc := rune_need_change (sum_balances P) rune_amount P.length with hnc0
      set postg := postage_arg.getD DEFAULT_POSTAGE with hpo
      set act := wsub64 (rune_required_btc nc postg) (runic_btc P) with hact
      set qb := take_until_gt ((mI.setRunicPool from_addr runeid []).btcPool from_addr)
        btc_amount with hqb
      set rem := wsub64 (wsub64 (wsub64 qb.2.1 btc_amount) r.fee) act with hrem
      by_cases hnc : nc = true
      · simp only [if_pos hnc] at ho
        by_cases hd : DUST_THRESHOLD < rem
        · simp only [if_pos hd] at ho
          simp at ho
          subst ho
          exact hd
        · simp only [if_neg hd] at ho
          simp at ho
      · simp only [if_neg hnc] at ho
        by_cases hd : DUST_THRESHOLD < rem
        · simp only [if_pos hd] at ho
          simp at ho
          subst ho
          exact hd
        · simp only [if_neg hd] at ho
          simp at ho
    | false =>
      obtain ⟨hfsel, hfge, hm, htx⟩ := hpfalse rfl
      rw [htx, hra, hrsel] at ho
      set P := mI.runicPool from_addr runeid with hP
      set nc := rune_need_change (sum_balances P) rune_amount P.length with hnc0
      set postg := postage_arg.getD DEFAULT_POSTAGE with hpo
      set act := wsub64 (rune_required_btc nc postg) (runic_btc P) with hact
      set qb := take_until_gt ((mI.setRunicPool from_addr runeid []).btcPool from_addr)
        btc_amount with hqb
      set qf := take_until_gt (((mI.setRunicPool from_addr runeid []).setBtcPool from_addr
        qb.2.2).btcPool receiver_addr) (r.fee + act) with hqf
      set remS := wsub64 qb.2.1 btc_amount with hremS
      set remF := wsub64 (wsub64 qf.2.1 r.fee) act with hremF
      by_cases hnc : nc = true
      · simp only [if_pos hnc] at ho
        by_cases hdf : DUST_THRESHOLD < remF
        · simp only [if_pos hdf] at ho
          by_cases hds : DUST_THRESHOLD < remS
          · simp only [if_pos hds] at ho
            simp at ho
            rcases ho with rfl | rfl
            · exact hds
            · exact hdf
          · simp only [if_neg hds] at ho
            simp at ho
            subst ho
            exact hdf
        · simp only [if_neg hdf] at ho
          by_cases hds : DUST_THRESHOLD < remS
          · simp only [if_pos hds] at ho
            simp at ho
            subst ho
            exact hds
          · simp only [if_neg hds] at ho
            simp at ho
      · simp only [if_neg hnc] at ho
        by_cases hdf : DUST_THRESHOLD < remF
        · simp only [if_pos hdf] at ho
          by_cases hds : DUST_THRESHOLD < remS
          · simp only [if_pos hds] at ho
            simp at ho
            rcases ho with rfl | rfl
            · exact hds
            · exact hdf
          · simp only [if_neg hds] at ho
            simp at ho
            subst ho
            exact hdf
        · simp only [if_neg hdf] at ho
          by_cases hds : DUST_THRESHOLD < remS
          · simp only [if_pos hds] at ho
            simp at ho
            subst ho
            exact hds
          · simp only [if_neg hds] at ho
            simp at ho

set_option maxRecDepth 8000 in
/-- Witness for C4: on the four concrete witness runs every output after the
mandatory payment outputs clears the dust threshold. -/
theorem c4_change_dust_gate_witness :
    (∀ o ∈ w_r1.txn.outputs.drop 1, DUST_THRESHOLD < o.value) ∧
    (∀ o ∈ w_r2.txn.outputs.drop 1, DUST_THRESHOLD < o.value) ∧
    (∀ o ∈ w_r3.txn.outputs.drop
      (if rune_need_change (sum_balances w_r3.runic_utxos) w_r3.amount w_r3.runic_utxos.length
       then 3 else 1), DUST_THRESHOLD < o.value) ∧
    (∀ o ∈ w_r4.txn.outputs.drop
      ((if rune_need_change (sum_balances w_r4.runic_utxos) w_r4.rune_amount
          w_r4.runic_utxos.length then 3 else 1) + 1), DUST_THRESHOLD < o.value) := by
  have h1 : btc_transfer "s" "s" "r" 50000 true 1000 3 wm_btc 0 = some (.ok w_r1, wn1) := rfl
  have h2 : multi_transfer "p" "q" "p" "q" "r" 51 50 1000 true 3 wm_multi 0
      = some (.ok w_r2, wn2) := rfl
  have h3 : rune_transfer wrid 200 "s" "r" "s" "r" 1000 true none 3 wm_rune 0
      = some (.ok w_r3, wn3) := rfl
  have h4 : combined_transfer "s" "r" "s" "r" wrid 50 25000 none 1000 false 3 wm_combined 0
      = some (.ok w_r4, wn4) := rfl
  exact ⟨c4_change_dust_gate.1 _ _ _ _ _ _ _ _ _ _ _ h1,
    c4_change_dust_gate.2.1 _ _ _ _ _ _ _ _ _ _ _ _ _ _ h2,
    c4_change_dust_gate.2.2.1 _ _ _ _ _ _ _ _ _ _ _ _ _ _ h3,
    c4_change_dust_gate.2.2.2 _ _ _ _ _ _ _ _ _ _ _ _ _ _ _ h4⟩

/-- A sender pool with one 50 500-sat UTXO for the conservation
counterexample. -/
def wm_c2 : UtxoManager := ⟨[("s", [⟨⟨1, 0⟩, 50500⟩])], []⟩

/-- The plain-send result of sending 50 000 sats out of `wm_c2` at fee rate
1000: the 308-sat remainder is below the dust threshold and is silently
absorbed, so inputs exceed outputs + fee. -/
def w_r_c2 : BitcoinTxnType :=
  ⟨"s", [⟨⟨1, 0⟩, 50500⟩], "s",
   ⟨2, 0, [⟨⟨1, 0⟩, 0⟩], [⟨.p2pkh "r", 50000⟩]⟩, 192⟩

set_option maxRecDepth 8000 in
/-- Counterexample to C2: a successful plain-send build whose input sum
(50 500) differs from output sum plus converged fee (50 000 + 192 = 50 192);
the 308-sat dropped change remainder is absorbed by the miner beyond the
reported fee. -/
theorem c2_conservation_counterexample :
    btc_transfer "s" "s" "r" 50000 true 1000 3 wm_c2 0 = some (.ok w_r_c2, ⟨[("s", [])], []⟩) ∧
    sum_values w_r_c2.utxos ≠ sum_out w_r_c2.txn + w_r_c2.fee :=
  ⟨rfl, by decide⟩

/-- Conservation up to dropped dust for the plain-send loop. -/
lemma c2_btc_conservation (addr sa ta : String) (amount rate : Nat) (paid : Bool)
    (fuel : Nat) (m : UtxoManager) (fee0 : Nat) (r : BitcoinTxnType) (m2 : UtxoManager)
    (h : btc_transfer addr sa ta amount paid rate fuel m fee0 = some (.ok r, m2))
    (hside : paid = true ∨ r.fee ≤ amount) :
    sum_out r.txn + r.fee ≤ sum_values r.utxos ∧
    sum_values r.utxos ≤ sum_out r.txn + r.fee + DUST_THRESHOLD := by
  obtain ⟨mI, hbuild, _, _⟩ := btc_transfer_ok h
  obtain ⟨hsel, hge, hm, htx⟩ := btc_build_ok hbuild
  have hsum : sum_values r.utxos
      = (take_until_gt (mI.btcPool addr) (if paid = true then amount + r.fee else amount)).2.1 := by
    rw [hsel, ← take_until_gt_sum]
  rw [htx]
  set T := if paid = true then amount + r.fee else amount with hT
  set q := take_until_gt (mI.btcPool addr) T with hq
  have hfT : r.fee ≤ T := by
    cases paid with
    | true => simp [hT]
    | false =>
      rcases hside with hc | hfle
      · exact absurd hc (by simp)
      · simpa [hT] using hfle
  have hrecv : (if paid = true then amount else wsub64 amount r.fee) = T - r.fee := by
    cases paid with
    | true => simp [hT]
    | false =>
      rcases hside with hc | hfle
      · exact absurd hc (by simp)
      · simp [hT, wsub64_of_le hfle]
  by_cases hd : DUST_THRESHOLD < q.2.1 - T
  · simp only [if_pos hd, sum_out, List.map_cons, List.map_nil, List.sum_cons,
      List.sum_nil, hrecv]
    omega
  · simp only [if_neg hd, sum_out, List.map_cons, List.map_nil, List.sum_cons,
      List.sum_nil, hrecv]
    omega

/-- Conservation up to dropped dust for the two-sender loop. -/
lemma c2_multi_conservation (addr0 addr1 a0 a1 recv : String) (amount0 amount1 rate : Nat)
    (paid : Bool) (fuel : Nat) (m : UtxoManager) (fee0 : Nat) (r : LegoBitcoinTxnType)
    (m2 : UtxoManager)
    (h : multi_transfer addr0 addr1 a0 a1 recv amount0 amount1 rate paid fuel m fee0
      = some (.ok r, m2))
    (hside : paid = true ∨ r.fee ≤ amount0 + amount1) :
    sum_out r.txn + r.fee ≤ sum_values r.utxos0 + sum_values r.utxos1 ∧
    sum_values r.utxos0 + sum_values r.utxos1
      ≤ sum_out r.txn + r.fee + 2 * DUST_THRESHOLD := by
  obtain ⟨mI, hbuild, _, _⟩ := multi_transfer_ok h
  obtain ⟨hsel0, hsel1, hge0, hge1, hm, htx⟩ := multi_build_ok hbuild
  have hfsplit := multi_fee_split_add r.fee
  have hsum0 : sum_values r.utxos0
      = (take_until_ge (mI.btcPool addr0)
          (if paid = true then amount0 + (multi_fee_split r.fee).1 else amount0)).2.1 := by
    rw [hsel0, ← take_until_ge_sum]
  rw [htx]
  set T0 := if paid = true then amount0 + (multi_fee_split r.fee).1 else amount0 with hT0
  set T1 := if paid = true then amount1 + (multi_fee_split r.fee).2 else amount1 with hT1
  set q0 := take_until_ge (mI.btcPool addr0) T0 with hq0
  have hsum1 : sum_values r.utxos1
      = (take_until_ge ((mI.setBtcPool addr0 q0.2.2).btcPool addr1) T1).2.1 := by
    rw [hsel1, ← take_until_ge_sum]
  set q1 := take_until_ge ((mI.setBtcPool addr0 q0.2.2).btcPool addr1) T1 with hq1
  have hfT : r.fee ≤ T0 + T1 := by
    cases paid with
    | true => simp [hT0, hT1]; omega
    | false =>
      rcases hside with hc | hfle
      · exact absurd hc (by simp)
      · simpa [hT0, hT1] using hfle
  have hrecv : (if paid = true then amount0 + amount1
      else wsub64 (wsub64 (amount0 + amount1) (multi_fee_split r.fee).1)
        (multi_fee_split r.fee).2) = T0 + T1 - r.fee := by
    cases paid with
    | true => simp [hT0, hT1]; omega
    | false =>
      rcases hside with hc | hfle
      · exact absurd hc (by simp)
      · have hf0 : (multi_fee_split r.fee).1 ≤ amount0 + amount1 := by omega
        have hf1 : (multi_fee_split r.fee).2
            ≤ amount0 + amount1 - (multi_fee_split r.fee).1 := by omega
        rw [if_neg (by simp), wsub64_of_le hf0, wsub64_of_le hf1, hT0, hT1]
        simp
        omega
  by_cases hd1 : DUST_THRESHOLD < q1.2.1 - T1
  · simp only [if_pos hd1]
    by_cases hd0 : DUST_THRESHOLD < q0.2.1 - T0
    · simp only [if_pos hd0, sum_out, List.map_append, List.map_cons, List.map_nil,
        List.sum_append, List.sum_cons, List.sum_nil, hrecv]
      omega
    · simp only [if_neg hd0, sum_out, List.map_append, List.map_cons, List.map_nil,
        List.sum_append, List.sum_cons, List.sum_nil, hrecv]
      omega
  · simp only [if_neg hd1]
    by_cases hd0 : DUST_THRESHOLD < q0.2.1 - T0
    · simp only [if_pos hd0, sum_out, List.map_append, List.map_cons, List.map_nil,
        List.sum_append, List.sum_cons, List.sum_nil, hrecv]
      omega
    · simp only [if_neg hd0, sum_out, List.map_append, List.map_cons, List.map_nil,
        List.sum_append, List.sum_cons, List.sum_nil, hrecv]
      omega

/-- Conservation up to dropped dust for the rune-transfer loop, assuming the
BTC carried inside the selected runic UTXOs does not exceed the required
postage total (otherwise the unchecked postage subtraction wraps). -/
lemma c2_rune_conservation (runeid : RuneId) (amount : Nat)
    (sender_addr receiver_addr sa ra : String) (rate : Nat) (paid : Bool)
    (postage_arg : Option Nat) (fuel : Nat) (m : UtxoManager) (fee0 : Nat)
    (r : RunestoneTxnType) (m2 : UtxoManager)
    (h : rune_transfer runeid amount sender_addr receiver_addr sa ra rate paid postage_arg
      fuel m fee0 = some (.ok r, m2))
    (hcar : runic_btc r.runic_utxos ≤ rune_required_btc
      (rune_need_change (sum_balances r.runic_utxos) r.amount r.runic_utxos.length)
      r.postage) :
    sum_out r.txn + r.fee ≤ runic_btc r.runic_utxos + sum_values r.fee_utxos ∧
    runic_btc r.runic_utxos + sum_values r.fee_utxos
      ≤ sum_out r.txn + r.fee + DUST_THRESHOLD := by
  obtain ⟨mI, hbuild, _, _, _, _, hamount, _, _, _, hpost⟩ := rune_transfer_ok h
  obtain ⟨hrsel, hfsel, hge, hfge, hm, htx⟩ := rune_build_ok hbuild
  have hB : runic_btc r.runic_utxos
      = (take_runic_until_gt (mI.runicPool sender_addr runeid) amount).2.2.1 := by
    rw [hrsel, ← take_runic_until_gt_btc]
  have hS : sum_balances r.runic_utxos
      = (take_runic_until_gt (mI.runicPool sender_addr runeid) amount).2.1 := by
    rw [hrsel, ← take_runic_until_gt_sum]
  have hL : r.runic_utxos.length
      = (take_runic_until_gt (mI.runicPool sender_addr runeid) amount).1.length := by
    rw [hrsel]
  rw [hamount, hS, hL, hpost, hB] at hcar
  have hF : sum_values r.fee_utxos
      = (take_until_gt ((mI.setRunicPool sender_addr runeid
          (take_runic_until_gt (mI.runicPool sender_addr runeid) amount).2.2.2).btcPool
          (if paid = true then sender_addr else receiver_addr))
          (r.fee + wsub64 (rune_required_btc
            (rune_need_change
              (take_runic_until_gt (mI.runicPool sender_addr runeid) amount).2.1 amount
              (take_runic_until_gt (mI.runicPool sender_addr runeid) amount).1.length)
            (postage_arg.getD DEFAULT_POSTAGE))
            (take_runic_until_gt (mI.runicPool sender_addr runeid) amount).2.2.1)).2.1 := by
    rw [hfsel, ← take_until_gt_sum]
  rw [htx, hB, hF]
  set qr := take_runic_until_gt (mI.runicPool sender_addr runeid) amount with hqr
  set nc := rune_need_change qr.2.1 amount qr.1.length with hnc0
  set postg := postage_arg.getD DEFAULT_POSTAGE with hpo
  set req := rune_required_btc nc postg with hreq0
  set act := wsub64 req qr.2.2.1 with hact0
  set fp := if paid = true then sender_addr else receiver_addr with hfp
  set qf := take_until_gt ((mI.setRunicPool sender_addr runeid qr.2.2.2).btcPool fp)
    (r.fee + act) with hqf
  have hact : act = req - qr.2.2.1 := by rw [hact0, wsub64_of_le hcar]
  have hfee_le : r.fee ≤ qf.2.1 := by omega
  have hact_le : act ≤ qf.2.1 - r.fee := by omega
  have hrem : wsub64 (wsub64 qf.2.1 r.fee) act = qf.2.1 - r.fee - act := by
    rw [wsub64_of_le hfee_le, wsub64_of_le hact_le]
  rw [hrem]
  by_cases hnc : nc = true
  · have hreq : req = postg * 2 := by
      rw [hreq0, rune_required_btc, if_pos hnc]
    by_cases hd : DUST_THRESHOLD < qf.2.1 - r.fee - act
    · simp only [if_pos hnc, if_pos hd]
      by_cases hp : paid = true
      · simp only [if_pos hp, sum_out, List.map_append, List.map_cons, List.map_nil,
          List.sum_append, List.sum_cons, List.sum_nil]
        omega
      · simp only [if_neg hp, sum_out, List.map_append, List.map_cons, List.map_nil,
          List.sum_append, List.sum_cons, List.sum_nil]
        omega
    · simp only [if_pos hnc, if_neg hd, sum_out, List.map_cons, List.map_nil,
        List.sum_cons, List.sum_nil]
      omega
  · have hreq : req = postg := by
      rw [hreq0, rune_required_btc, if_neg hnc]
    by_cases hd : DUST_THRESHOLD < qf.2.1 - r.fee - act
    · simp only [if_neg hnc, if_pos hd]
      by_cases hp : paid = true
      · simp only [if_pos hp, sum_out, List.map_append, List.map_cons, List.map_nil,
          List.sum_append, List.sum_cons, List.sum_nil]
        omega
      · simp only [if_neg hp, sum_out, List.map_append, List.map_cons, List.map_nil,
          List.sum_append, List.sum_cons, List.sum_nil]
        omega
    · simp only [if_neg hnc, if_neg hd, sum_out, List.map_cons, List.map_nil,
        List.sum_cons, List.sum_nil]
      omega

/-- Conservation up to dropped dust for the combined-transfer loop in the
receiver-pays mode (the only mode the canister invokes), assuming the BTC
carried inside the runic inputs does not exceed the required postage total. -/
lemma c2_combined_conservation (from_addr receiver_addr sa ra : String) (runeid : RuneId)
    (rune_amount btc_amount : Nat) (postage_arg : Option Nat) (rate : Nat) (paid : Bool)
    (fuel : Nat) (m : UtxoManager) (fee0 : Nat) (r : CombinedTxnType) (m2 : UtxoManager)
    (h : combined_transfer from_addr receiver_addr sa ra runeid rune_amount btc_amount
      postage_arg rate paid fuel m fee0 = some (.ok r, m2))
    (hp : paid = false)
    (hcar : runic_btc r.runic_utxos ≤ rune_required_btc
      (rune_need_change (sum_balances r.runic_utxos) r.rune_amount r.runic_utxos.length)
      r.postage) :
    sum_out r.txn + r.fee
      ≤ runic_btc r.runic_utxos + sum_values r.btc_utxos + sum_values r.fee_utxos ∧
    runic_btc r.runic_utxos + sum_values r.btc_utxos + sum_values r.fee_utxos
      ≤ sum_out r.txn + r.fee + 2 * DUST_THRESHOLD := by
  obtain ⟨mI, hbuild, _, _, _, _, _, _, hra, _, _, hpost⟩ := combined_transfer_ok h
  obtain ⟨hrsel, hbsel, hge, hbge, hptrue, hpfalse⟩ := combined_build_ok hbuild
  obtain ⟨hfsel, hfge, hm, htx⟩ := hpfalse hp
  rw [hra, hrsel, hpost] at hcar
  have hBsum : sum_values r.btc_utxos
      = (take_until_gt ((mI.setRunicPool from_addr runeid []).btcPool from_addr)
          btc_amount).2.1 := by
    rw [hbsel, ← take_until_gt_sum]
  have hFsum : sum_values r.fee_utxos
      = (take_until_gt (((mI.setRunicPool from_addr runeid []).setBtcPool from_addr
          (take_until_gt ((mI.setRunicPool from_addr runeid []).btcPool from_addr)
            btc_amount).2.2).btcPool receiver_addr)
          (r.fee + wsub64 (rune_required_btc
            (rune_need_change (sum_balances (mI.runicPool from_addr runeid)) rune_amount
              (mI.runicPool from_addr runeid).length)
            (postage_arg.getD DEFAULT_POSTAGE))
            (runic_btc (mI.runicPool from_addr runeid)))).2.1 := by
    rw [hfsel, ← take_until_gt_sum]
  rw [htx, hrsel, hBsum, hFsum]
  set P := mI.runicPool from_addr runeid with hP
  set nc := rune_need_change (sum_balances P) rune_amount P.length with hnc0
  set postg := postage_arg.getD DEFAULT_POSTAGE with hpo
  set req := rune_required_btc nc postg with hreq0
  set act := wsub64 req (runic_btc P) with hact0
  set qb := take_until_gt ((mI.setRunicPool from_addr runeid []).btcPool from_addr)
    btc_amount with hqb
  set qf := take_until_gt (((mI.setRunicPool from_addr runeid []).setBtcPool from_addr
    qb.2.2).btcPool receiver_addr) (r.fee + act) with hqf
  have hact : act = req - runic_btc P := by rw [hact0, wsub64_of_le hcar]
  have hfee_le : r.fee ≤ qf.2.1 := by omega
  have hact_le : act ≤ qf.2.1 - r.fee := by omega
  have hremF : wsub64 (wsub64 qf.2.1 r.fee) act = qf.2.1 - r.fee - act := by
    rw [wsub64_of_le hfee_le, wsub64_of_le hact_le]
  have hremS : wsub64 qb.2.1 btc_amount = qb.2.1 - btc_amount := wsub64_of_le hbge
  rw [hremF, hremS]
  by_cases hnc : nc = true
  · have hreq : req = postg * 2 := by rw [hreq0, rune_required_btc, if_pos hnc]
    by_cases hdf : DUST_THRESHOLD < qf.2.1 - r.fee - act
    · simp only [if_pos hnc, if_pos hdf]
      by_cases hds : DUST_THRESHOLD < qb.2.1 - btc_amount
      · simp only [if_pos hds, sum_out, List.map_append, List.map_cons, List.map_nil,
          List.sum_append, List.sum_cons, List.sum_nil]
        omega
      · simp only [if_neg hds, sum_out, List.map_append, List.map_cons, List.map_nil,
          List.sum_append, List.sum_cons, List.sum_nil]
        omega
    · simp only [if_pos hnc, if_neg hdf]
      by_cases hds : DUST_THRESHOLD < qb.2.1 - btc_amount
      · simp only [if_pos hds, sum_out, List.map_append, List.map_cons, List.map_nil,
          List.sum_append, List.sum_cons, List.sum_nil]
        omega
      · simp only [if_neg hds, sum_out, List.map_append, List.map_cons, List.map_nil,
          List.sum_append, List.sum_cons, List.sum_nil]
        omega
  · have hreq : req = postg := by rw [hreq0, rune_required_btc, if_neg hnc]
    by_cases hdf : DUST_THRESHOLD < qf.2.1 - r.fee - act
    · simp only [if_neg hnc, if_pos hdf]
      by_cases hds : DUST_THRESHOLD < qb.2.1 - btc_amount
      · simp only [if_pos hds, sum_out, List.map_append, List.map_cons, List.map_nil,
          List.sum_append, List.sum_cons, List.sum_nil]
        omega
      · simp only [if_neg hds, sum_out, List.map_append, List.map_cons, List.map_nil,
          List.sum_append, List.sum_cons, List.sum_nil]
        omega
    · simp only [if_neg hnc, if_neg hdf]
      by_cases hds : DUST_THRESHOLD < qb.2.1 - btc_amount
      · simp only [if_pos hds, sum_out, List.map_append, List.map_cons, List.map_nil,
          List.sum_append, List.sum_cons, List.sum_nil]
        omega
      · simp only [if_neg hds, sum_out, List.map_append, List.map_cons, List.map_nil,
          List.sum_append, List.sum_cons, List.sum_nil]
        omega

/-- C2 (amended): for every successful build, the input-value sum equals the
output-value sum plus the converged fee plus the dropped sub-dust change
remainders — one candidate per change gate, each at most 1000 sats — so
`sum(out) + fee ≤ sum(in) ≤ sum(out) + fee + gates · 1000` (one gate for the
plain and rune shapes, two for the two-sender and combined shapes).  The
receiver-pays subtraction `amount - fee` and the postage subtraction
`required - carried` are unchecked in the source, so the bound holds under
the side conditions that keep them from wrapping (`fee ≤ amount` when the
receiver pays; carried BTC at most the required postage total; the combined
shape in its receiver-pays mode, the only one the canister uses). -/
theorem c2_conservation_up_to_dust :
    (∀ (addr sa ta : String) (amount rate : Nat) (paid : Bool) (fuel : Nat)
      (m : UtxoManager) (fee0 : Nat) (r : BitcoinTxnType) (m2 : UtxoManager),
      btc_transfer addr sa ta amount paid rate fuel m fee0 = some (.ok r, m2) →
      paid = true ∨ r.fee ≤ amount →
      sum_out r.txn + r.fee ≤ sum_values r.utxos ∧
      sum_values r.utxos ≤ sum_out r.txn + r.fee + DUST_THRESHOLD) ∧
    (∀ (addr0 addr1 a0 a1 recv : String) (amount0 amount1 rate : Nat) (paid : Bool)
      (fuel : Nat) (m : UtxoManager) (fee0 : Nat) (r : LegoBitcoinTxnType)
      (m2 : UtxoManager),
      multi_transfer addr0 addr1 a0 a1 recv amount0 amount1 rate paid fuel m fee0
        = some (.ok r, m2) →
      paid = true ∨ r.fee ≤ amount0 + amount1 →
      sum_out r.txn + r.fee ≤ sum_values r.utxos0 + sum_values r.utxos1 ∧
      sum_values r.utxos0 + sum_values r.utxos1
        ≤ sum_out r.txn + r.fee + 2 * DUST_THRESHOLD) ∧
    (∀ (runeid : RuneId) (amount : Nat) (sender_addr receiver_addr sa ra : String)
      (rate : Nat) (paid : Bool) (postage_arg : Option Nat) (fuel : Nat)
      (m : UtxoManager) (fee0 : Nat) (r : RunestoneTxnType) (m2 : UtxoManager),
      rune_transfer runeid amount sender_addr receiver_addr sa ra rate paid postage_arg
        fuel m fee0 = some (.ok r, m2) →
      runic_btc r.runic_utxos ≤ rune_required_btc
        (rune_need_change (sum_balances r.runic_utxos) r.amount r.runic_utxos.length)
        r.postage →
      sum_out r.txn + r.fee ≤ runic_btc r.runic_utxos + sum_values r.fee_utxos ∧
      runic_btc r.runic_utxos + sum_values r.fee_utxos
        ≤ sum_out r.txn + r.fee + DUST_THRESHOLD) ∧
    (∀ (from_addr receiver_addr sa ra : String) (runeid : RuneId)
      (rune_amount btc_amount : Nat) (postage_arg : Option Nat) (rate : Nat) (paid : Bool)
      (fuel : Nat) (m : UtxoManager) (fee0 : Nat) (r : CombinedTxnType) (m2 : UtxoManager),
      combined_transfer from_addr receiver_addr sa ra runeid rune_amount btc_amount
        postage_arg rate paid fuel m fee0 = some (.ok r, m2) →
      paid = false →
      runic_btc r.runic_utxos ≤ rune_required_btc
        (rune_need_change (sum_balances r.runic_utxos) r.rune_amount r.runic_utxos.length)
        r.postage →
      sum_out r.txn + r.fee
        ≤ runic_btc r.runic_utxos + sum_values r.btc_utxos + sum_values r.fee_utxos ∧
      runic_btc r.runic_utxos + sum_values r.btc_utxos + sum_values r.fee_utxos
        ≤ sum_out r.txn + r.fee + 2 * DUST_THRESHOLD) :=
  ⟨c2_btc_conservation, c2_multi_conservation, c2_rune_conservation,
    c2_combined_conservation⟩

set_option maxRecDepth 8000 in
/-- Witness for C2: the conservation bounds hold on the four concrete
witness runs, with every side condition discharged concretely. -/
theorem c2_conservation_up_to_dust_witness :
    (sum_out w_r1.txn + w_r1.fee ≤ sum_values w_r1.utxos ∧
      sum_values w_r1.utxos ≤ sum_out w_r1.txn + w_r1.fee + DUST_THRESHOLD) ∧
    (sum_out w_r2.txn + w_r2.fee ≤ sum_values w_r2.utxos0 + sum_values w_r2.utxos1 ∧
      sum_values w_r2.utxos0 + sum_values w_r2.utxos1
        ≤ sum_out w_r2.txn + w_r2.fee + 2 * DUST_THRESHOLD) ∧
    (sum_out w_r3.txn + w_r3.fee ≤ runic_btc w_r3.runic_utxos + sum_values w_r3.fee_utxos ∧
      runic_btc w_r3.runic_utxos + sum_values w_r3.fee_utxos
        ≤ sum_out w_r3.txn + w_r3.fee + DUST_THRESHOLD) ∧
    (sum_out w_r4.txn + w_r4.fee
        ≤ runic_btc w_r4.runic_utxos + sum_values w_r4.btc_utxos + sum_values w_r4.fee_utxos ∧
      runic_btc w_r4.runic_utxos + sum_values w_r4.btc_utxos + sum_values w_r4.fee_utxos
        ≤ sum_out w_r4.txn + w_r4.fee + 2 * DUST_THRESHOLD) := by
  have h1 : btc_transfer "s" "s" "r" 50000 true 1000 3 wm_btc 0 = some (.ok w_r1, wn1) := rfl
  have h2 : multi_transfer "p" "q" "p" "q" "r" 51 50 1000 true 3 wm_multi 0
      = some (.ok w_r2, wn2) := rfl
  have h3 : rune_transfer wrid 200 "s" "r" "s" "r" 1000 true none 3 wm_rune 0
      = some (.ok w_r3, wn3) := rfl
  have h4 : combined_transfer "s" "r" "s" "r" wrid 50 25000 none 1000 false 3 wm_combined 0
      = some (.ok w_r4, wn4) := rfl
  exact ⟨c2_conservation_up_to_dust.1 _ _ _ _ _ _ _ _ _ _ _ h1 (.inl rfl),
    c2_conservation_up_to_dust.2.1 _ _ _ _ _ _ _ _ _ _ _ _ _ _ h2 (.inl rfl),
    c2_conservation_up_to_dust.2.2.1 _ _ _ _ _ _ _ _ _ _ _ _ _ _ h3 (by decide),
    c2_conservation_up_to_dust.2.2.2 _ _ _ _ _ _ _ _ _ _ _ _ _ _ _ h4 rfl (by decide)⟩

/-- A runic pool whose single UTXO carries 25 000 sats of BTC — more than
the 2·postage = 20 000 the rune outputs require. -/
def wm_c9 : UtxoManager := ⟨[], [(("s", wrid), [⟨⟨⟨2, 0⟩, 25000⟩, 100⟩])]⟩

/-- Counterexample to C9: the rune builder's selection on `wm_c9` (transfer
50 of a 100-balance UTXO, postage 10 000) carries 25 000 sats of BTC while
the postage outputs require only 20 000, so
`required_btc_for_rune_output - btc_in_runic` underflows: the wrapping
subtraction yields 2^64 - 5000, and the builder surfaces a bogus `(0, 0)`
fee-shortfall error instead of building. -/
theorem c9_underflow_counterexample :
    (take_runic_until_gt (wm_c9.runicPool "s" wrid) 50).1 = [⟨⟨⟨2, 0⟩, 25000⟩, 100⟩] ∧
    rune_required_btc
      (rune_need_change (sum_balances (take_runic_until_gt (wm_c9.runicPool "s" wrid) 50).1)
        50 (take_runic_until_gt (wm_c9.runicPool "s" wrid) 50).1.length) 10000
      < runic_btc (take_runic_until_gt (wm_c9.runicPool "s" wrid) 50).1 ∧
    wsub64
      (rune_required_btc
        (rune_need_change
          (sum_balances (take_runic_until_gt (wm_c9.runicPool "s" wrid) 50).1) 50
          (take_runic_until_gt (wm_c9.runicPool "s" wrid) 50).1.length) 10000)
      (runic_btc (take_runic_until_gt (wm_c9.runicPool "s" wrid) 50).1)
      = 18446744073709546616 ∧
    (rune_build_transaction_with_fee wm_c9 wrid 50 "s" "r" "s" "r" 0 true 10000).1
      = .error (0, 0) :=
  ⟨by decide, by decide, by decide, rfl⟩

/-- C9 (amended): the unchecked subtraction
`required_btc_for_rune_output - btc_in_runic` of the rune and combined
builders does not underflow — it equals the plain difference and is bounded
by 2·postage — PROVIDED the BTC carried inside the selected runic UTXOs is
at most the required postage total; the builders can make selections
violating that bound (see the counterexample), and then the subtraction
wraps modulo 2^64. -/
theorem c9_postage_subtraction_no_underflow (rs : List RunicUtxo) (amount postage : Nat)
    (h : runic_btc rs ≤ rune_required_btc
      (rune_need_change (sum_balances rs) amount rs.length) postage) :
    wsub64 (rune_required_btc (rune_need_change (sum_balances rs) amount rs.length) postage)
        (runic_btc rs)
      = rune_required_btc (rune_need_change (sum_balances rs) amount rs.length) postage
        - runic_btc rs ∧
    wsub64 (rune_required_btc (rune_need_change (sum_balances rs) amount rs.length) postage)
        (runic_btc rs) ≤ postage * 2 := by
  refine ⟨wsub64_of_le h, ?_⟩
  rw [wsub64_of_le h]
  unfold rune_required_btc at *
  split <;> omega

/-- Witness for C9: the runic selection of the rune-transfer witness run
(two UTXOs of 546 sats each, carrying 1092 ≤ 20 000) satisfies the bound and
the subtraction computes the plain difference 18 908 ≤ 20 000. -/
theorem c9_postage_subtraction_no_underflow_witness :
    wsub64
      (rune_required_btc
        (rune_need_change (sum_balances w_r3.runic_utxos) 200 w_r3.runic_utxos.length)
        10000)
      (runic_btc w_r3.runic_utxos)
      = rune_required_btc
          (rune_need_change (sum_balances w_r3.runic_utxos) 200 w_r3.runic_utxos.length)
          10000 - runic_btc w_r3.runic_utxos ∧
    wsub64
      (rune_required_btc
        (rune_need_change (sum_balances w_r3.runic_utxos) 200 w_r3.runic_utxos.length)
        10000)
      (runic_btc w_r3.runic_utxos) ≤ 10000 * 2 :=
  c9_postage_subtraction_no_underflow w_r3.runic_utxos 200 10000 (by decide)

/-- The amount split of lib.rs sums back, and an odd amount gives the extra
satoshi to the FIRST party. -/
lemma withdraw_amount_split_spec (a : Nat) :
    (withdraw_two_senders_amount_split a).1 + (withdraw_two_senders_amount_split a).2 = a ∧
    (withdraw_two_senders_amount_split a).2 ≤ (withdraw_two_senders_amount_split a).1 ∧
    (withdraw_two_senders_amount_split a).1 ≤ (withdraw_two_senders_amount_split a).2 + 1 := by
  unfold withdraw_two_senders_amount_split
  split <;> rename_i h <;> simp <;> omega

/-- The fee split of multi_sender_txn.rs sums back, and an odd fee gives the
extra satoshi to the SECOND party. -/
lemma multi_fee_split_spec (f : Nat) :
    (multi_fee_split f).1 + (multi_fee_split f).2 = f ∧
    (multi_fee_split f).1 ≤ (multi_fee_split f).2 ∧
    (multi_fee_split f).2 ≤ (multi_fee_split f).1 + 1 := by
  unfold multi_fee_split
  split <;> rename_i h <;> simp <;> omega

/-- Counterexample to C6: lib.rs splits an odd total amount with the extra
satoshi to the FIRST party — `withdraw_two_senders_amount_split 101 = (51, 50)`,
not `(50, 51)` as the claim says — while the fee split of multi_sender_txn.rs
does give the extra satoshi to the second party (`multi_fee_split 9 = (4, 5)`). -/
theorem c6_split_counterexample :
    withdraw_two_senders_amount_split 101 = (51, 50) ∧
    ¬ withdraw_two_senders_amount_split 101 = (50, 51) ∧
    multi_fee_split 9 = (4, 5) := by
  decide

/-- C6 (amended): in the two-sender send, an odd total amount is split in half
with the extra satoshi assigned to the FIRST party (not the second), an odd
fee is split with the extra satoshi to the second party, and on a successful
build each sender's pool is drained independently (the second selection runs
on the manager with only the first sender's pool updated) until that sender's
half plus, when the senders pay the fee, their fee share is covered. -/
theorem c6_two_sender_split {m : UtxoManager} {addr0 addr1 a0 a1 recv : String}
    {amount fee : Nat} {paid : Bool} {tx : Tx} {sel0 sel1 : List Utxo} {m' : UtxoManager}
    (h : multi_build_transaction_with_fee m addr0 addr1 a0 a1 recv
        (withdraw_two_senders_amount_split amount).1
        (withdraw_two_senders_amount_split amount).2 fee paid = (.ok (tx, sel0, sel1), m')) :
    (withdraw_two_senders_amount_split amount).1 + (withdraw_two_senders_amount_split amount).2
        = amount ∧
    (withdraw_two_senders_amount_split amount).2 ≤ (withdraw_two_senders_amount_split amount).1 ∧
    (withdraw_two_senders_amount_split amount).1
        ≤ (withdraw_two_senders_amount_split amount).2 + 1 ∧
    (multi_fee_split fee).1 + (multi_fee_split fee).2 = fee ∧
    (multi_fee_split fee).1 ≤ (multi_fee_split fee).2 ∧
    (multi_fee_split fee).2 ≤ (multi_fee_split fee).1 + 1 ∧
    sel0 = (take_until_ge (m.btcPool addr0)
      (if paid = true
       then (withdraw_two_senders_amount_split amount).1 + (multi_fee_split fee).1
       else (withdraw_two_senders_amount_split amount).1)).1 ∧
    sel1 = (take_until_ge ((m.setBtcPool addr0 (take_until_ge (m.btcPool addr0)
        (if paid = true
         then (withdraw_two_senders_amount_split amount).1 + (multi_fee_split fee).1
         else (withdraw_two_senders_amount_split amount).1)).2.2).btcPool addr1)
      (if paid = true
       then (withdraw_two_senders_amount_split amount).2 + (multi_fee_split fee).2
       else (withdraw_two_senders_amount_split amount).2)).1 ∧
    (if paid = true
     then (withdraw_two_senders_amount_split amount).1 + (multi_fee_split fee).1
     else (withdraw_two_senders_amount_split amount).1) ≤ sum_values sel0 ∧
    (if paid = true
     then (withdraw_two_senders_amount_split amount).2 + (multi_fee_split fee).2
     else (withdraw_two_senders_amount_split amount).2) ≤ sum_values sel1 := by
  obtain ⟨hsel0, hsel1, hge0, hge1, _, _⟩ := multi_build_ok h
  obtain ⟨ha1, ha2, ha3⟩ := withdraw_amount_split_spec amount
  obtain ⟨hf1, hf2, hf3⟩ := multi_fee_split_spec fee
  refine ⟨ha1, ha2, ha3, hf1, hf2, hf3, hsel0, hsel1, ?_, ?_⟩
  · rw [hsel0, ← take_until_ge_sum]; exact hge0
  · rw [hsel1, ← take_until_ge_sum]; exact hge1

/-- Witness for C6: on `wm_multi` with total amount 101 (split (51, 50)) and
fee 408 (split (204, 204)), paid by the senders, each sender's single UTXO is
drawn and covers that sender's share. -/
theorem c6_two_sender_split_witness :
    (withdraw_two_senders_amount_split 101).1 + (withdraw_two_senders_amount_split 101).2
        = 101 ∧
    (withdraw_two_senders_amount_split 101).2 ≤ (withdraw_two_senders_amount_split 101).1 ∧
    (withdraw_two_senders_amount_split 101).1
        ≤ (withdraw_two_senders_amount_split 101).2 + 1 ∧
    (multi_fee_split 408).1 + (multi_fee_split 408).2 = 408 ∧
    (multi_fee_split 408).1 ≤ (multi_fee_split 408).2 ∧
    (multi_fee_split 408).2 ≤ (multi_fee_split 408).1 + 1 ∧
    ([⟨⟨4, 0⟩, 60000⟩] : List Utxo) = (take_until_ge (wm_multi.btcPool "p")
      (if (true : Bool) = true
       then (withdraw_two_senders_amount_split 101).1 + (multi_fee_split 408).1
       else (withdraw_two_senders_amount_split 101).1)).1 ∧
    ([⟨⟨5, 0⟩, 70000⟩] : List Utxo) = (take_until_ge
      ((wm_multi.setBtcPool "p" (take_until_ge (wm_multi.btcPool "p")
        (if (true : Bool) = true
         then (withdraw_two_senders_amount_split 101).1 + (multi_fee_split 408).1
         else (withdraw_two_senders_amount_split 101).1)).2.2).btcPool "q")
      (if (true : Bool) = true
       then (withdraw_two_senders_amount_split 101).2 + (multi_fee_split 408).2
       else (withdraw_two_senders_amount_split 101).2)).1 ∧
    (if (true : Bool) = true
     then (withdraw_two_senders_amount_split 101).1 + (multi_fee_split 408).1
     else (withdraw_two_senders_amount_split 101).1)
      ≤ sum_values ([⟨⟨4, 0⟩, 60000⟩] : List Utxo) ∧
    (if (true : Bool) = true
     then (withdraw_two_senders_amount_split 101).2 + (multi_fee_split 408).2
     else (withdraw_two_senders_amount_split 101).2)
      ≤ sum_values ([⟨⟨5, 0⟩, 70000⟩] : List Utxo) := by
  have hb : multi_build_transaction_with_fee wm_multi "p" "q" "p" "q" "r"
      (withdraw_two_senders_amount_split 101).1 (withdraw_two_senders_amount_split 101).2
      408 true
      = (.ok (⟨2, 0, [⟨⟨4, 0⟩, 0⟩, ⟨⟨5, 0⟩, 0⟩],
          [⟨.p2pkh "r", 101⟩, ⟨.p2pkh "p", 59745⟩, ⟨.p2pkh "q", 69746⟩]⟩,
          [⟨⟨4, 0⟩, 60000⟩], [⟨⟨5, 0⟩, 70000⟩]), wn2) := rfl
  exact c6_two_sender_split hb

lemma perm_shuffle {α : Type} (a b c : List α) :
    List.Perm (a ++ (b ++ c)) (b ++ (a ++ c)) := by
  have h : List.Perm ((a ++ b) ++ c) ((b ++ a) ++ c) :=
    List.Perm.append_right c List.perm_append_comm
  simpa [List.append_assoc] using h

/-- Removing a prefix selection from a plain pool and recording it back
restores the pool exactly. -/
lemma record_btc_restores (m : UtxoManager) (a : String) (t : Nat) (x : String) :
    ((m.setBtcPool a (take_until_gt (m.btcPool a) t).2.2).record_btc_utxos a
      (take_until_gt (m.btcPool a) t).1).btcPool x = m.btcPool x := by
  by_cases hx : a = x
  · rw [btcPool_record, if_pos hx, btcPool_setBtcPool, if_pos rfl, take_until_gt_append, hx]
  · rw [btcPool_record, if_neg hx, btcPool_setBtcPool, if_neg hx]

/-- Removing a prefix selection from a runic pool and recording it back
restores every runic pool exactly. -/
lemma record_runic_restores (m : UtxoManager) (a : String) (rid : RuneId) (t : Nat)
    (x : String) (rid' : RuneId) :
    ((m.setRunicPool a rid (take_runic_until_gt (m.runicPool a rid) t).2.2.2).record_runic_utxos
      a rid (take_runic_until_gt (m.runicPool a rid) t).1).runicPool x rid'
      = m.runicPool x rid' := by
  by_cases hk : a = x ∧ rid = rid'
  · rw [runicPool_record, if_pos hk, runicPool_setRunicPool, if_pos ⟨rfl, rfl⟩,
      take_runic_until_gt_append, hk.1, hk.2]
  · rw [runicPool_record, if_neg hk, runicPool_setRunicPool, if_neg hk]

/-- Draining a runic pool completely and recording the drained UTXOs back
restores every runic pool exactly. -/
lemma record_runic_all_restores (m : UtxoManager) (a : String) (rid : RuneId)
    (x : String) (rid' : RuneId) :
    ((m.setRunicPool a rid []).record_runic_utxos a rid (m.runicPool a rid)).runicPool x rid'
      = m.runicPool x rid' := by
  by_cases hk : a = x ∧ rid = rid'
  · rw [runicPool_record, if_pos hk, runicPool_setRunicPool, if_pos ⟨rfl, rfl⟩,
      List.append_nil, hk.1, hk.2]
  · rw [runicPool_record, if_neg hk, runicPool_setRunicPool, if_neg hk]

/-- Two successive selections recorded back in order restore every plain pool
up to permutation (exactly, unless the two addresses coincide). -/
lemma two_record_restore (m : UtxoManager) (a0 a1 : String)
    (s0 r0 s1 r1 : List Utxo)
    (h0 : s0 ++ r0 = m.btcPool a0)
    (h1 : s1 ++ r1 = (m.setBtcPool a0 r0).btcPool a1) (x : String) :
    List.Perm
      (((((m.setBtcPool a0 r0).setBtcPool a1 r1).record_btc_utxos a0 s0).record_btc_utxos
        a1 s1).btcPool x)
      (m.btcPool x) := by
  by_cases h1x : a1 = x
  · rw [btcPool_record, if_pos h1x]
    by_cases h01 : a0 = a1
    · rw [btcPool_record, if_pos h01, btcPool_setBtcPool, if_pos h01.symm]
      rw [btcPool_setBtcPool, if_pos h01] at h1
      have heq : s0 ++ (s1 ++ r1) = m.btcPool x := by rw [h1, h0, h01, h1x]
      exact (perm_shuffle s1 s0 r1).trans (by rw [heq])
    · rw [btcPool_record, if_neg h01, btcPool_setBtcPool, if_pos rfl]
      rw [btcPool_setBtcPool, if_neg h01] at h1
      rw [h1, h1x]
  · rw [btcPool_record, if_neg h1x, btcPool_record]
    by_cases h0x : a0 = x
    · have h10 : ¬ a1 = a0 := fun hc => h1x (hc.trans h0x)
      rw [if_pos h0x, btcPool_setBtcPool, if_neg h10, btcPool_setBtcPool, if_pos rfl,
        h0, h0x]
    · rw [if_neg h0x, btcPool_setBtcPool, if_neg h1x, btcPool_setBtcPool, if_neg h0x]

/-- A manager holding one runic UTXO and no plain UTXOs at all, so the rune
builder passes its runic phase but fails its fee phase. -/
def wm_c3 : UtxoManager := ⟨[], [(("s", wrid), [⟨⟨⟨2, 0⟩, 546⟩, 100⟩])]⟩

/-- Counterexample to C3: when the rune builder fails in its SECOND phase
(fee/postage selection), it records the fee UTXOs back but NOT the runic
UTXOs it removed in the first phase: on `wm_c3` the build fails with
`(0, 0)` and the sender's runic pool, which held one UTXO before the call,
is left empty — the borrowed runic UTXO is lost. -/
theorem c3_rollback_counterexample :
    (rune_build_transaction_with_fee wm_c3 wrid 50 "s" "r" "s" "r" 0 true 10000).1
      = .error (0, 0) ∧
    wm_c3.runicPool "s" wrid = [⟨⟨⟨2, 0⟩, 546⟩, 100⟩] ∧
    ((rune_build_transaction_with_fee wm_c3 wrid 50 "s" "r" "s" "r" 0 true 10000).2).runicPool
      "s" wrid = [] :=
  ⟨rfl, rfl, rfl⟩

/-- A failing plain build restores every plain and runic pool exactly. -/
lemma c3_btc_error_restores (m : UtxoManager) (addr sa ta : String) (amount fee : Nat)
    (paid : Bool) (e : Nat) (m' : UtxoManager)
    (h : btc_build_transaction_with_fee m addr sa ta amount fee paid = (.error e, m')) :
    (∀ x, m'.btcPool x = m.btcPool x) ∧
    (∀ x rid, m'.runicPool x rid = m.runicPool x rid) := by
  obtain ⟨-, -, hm⟩ := btc_build_error h
  constructor
  · intro x
    rw [hm]
    exact record_btc_restores m addr _ x
  · intro x rid
    rw [hm]
    rfl

/-- A failing two-sender build restores every plain pool up to permutation
(exactly when the two sender addresses differ) and leaves runic pools
untouched. -/
lemma c3_multi_error_restores (m : UtxoManager) (addr0 addr1 a0 a1 recv : String)
    (amount0 amount1 fee : Nat) (paid : Bool) (e : Nat × Nat) (m' : UtxoManager)
    (h : multi_build_transaction_with_fee m addr0 addr1 a0 a1 recv amount0 amount1 fee paid
      = (.error e, m')) :
    (∀ x, List.Perm (m'.btcPool x) (m.btcPool x)) ∧
    (∀ x rid, m'.runicPool x rid = m.runicPool x rid) := by
  obtain ⟨-, -, hm⟩ := multi_build_error h
  constructor
  · intro x
    rw [hm]
    exact two_record_restore m addr0 addr1 _ _ _ _ (take_until_ge_append _ _)
      (take_until_ge_append _ _) x
  · intro x rid
    rw [hm]
    rfl

/-- A failing rune build restores every plain pool exactly and every runic
pool at a key other than (sender, rune id) exactly; the sender's pool for the
transferred rune is fully restored on a FIRST-phase failure but keeps only
the unselected remainder on a SECOND-phase failure (the borrowed runic UTXOs
leak). -/
lemma c3_rune_error_restores (m : UtxoManager) (runeid : RuneId) (amount : Nat)
    (sender_addr receiver_addr sa ra : String) (fee : Nat) (paid : Bool) (postage : Nat)
    (e : Nat × Nat) (m' : UtxoManager)
    (h : rune_build_transaction_with_fee m runeid amount sender_addr receiver_addr sa ra
      fee paid postage = (.error e, m')) :
    (∀ x, m'.btcPool x = m.btcPool x) ∧
    (∀ x rid, ¬ (x = sender_addr ∧ rid = runeid) → m'.runicPool x rid = m.runicPool x rid) ∧
    ((take_runic_until_gt (m.runicPool sender_addr runeid) amount).2.1 < amount →
      m'.runicPool sender_addr runeid = m.runicPool sender_addr runeid) ∧
    (amount ≤ (take_runic_until_gt (m.runicPool sender_addr runeid) amount).2.1 →
      m'.runicPool sender_addr runeid
        = (take_runic_until_gt (m.runicPool sender_addr runeid) amount).2.2.2) := by
  rcases rune_build_error h with ⟨hlt, -, hm⟩ | ⟨hge, -, -, hm⟩
  · refine ⟨fun x => ?_, fun x rid hne => ?_, fun hh => ?_, fun hh => ?_⟩
    · rw [hm]
      rfl
    · have hne' : ¬ (sender_addr = x ∧ runeid = rid) := fun hp => hne ⟨hp.1.symm, hp.2.symm⟩
      rw [hm, runicPool_record, if_neg hne', runicPool_setRunicPool, if_neg hne']
    · rw [hm]
      exact record_runic_restores m sender_addr runeid amount sender_addr runeid
    · exact absurd hh (by omega)
  · refine ⟨fun x => ?_, fun x rid hne => ?_, fun hh => ?_, fun hh => ?_⟩
    · rw [hm]
      exact record_btc_restores (m.setRunicPool sender_addr runeid
        (take_runic_until_gt (m.runicPool sender_addr runeid) amount).2.2.2) _ _ x
    · have hne' : ¬ (sender_addr = x ∧ runeid = rid) := fun hp => hne ⟨hp.1.symm, hp.2.symm⟩
      rw [hm, runicPool_record_btc, runicPool_setBtcPool, runicPool_setRunicPool, if_neg hne']
    · exact absurd hge (by omega)
    · rw [hm, runicPool_record_btc, runicPool_setBtcPool, runicPool_setRunicPool,
        if_pos ⟨rfl, rfl⟩]

/-- A failing combined build: a first-phase (rune) failure restores
everything; a second-phase (BTC) failure restores the plain pools but leaks
the whole runic pool; a fee-phase failure additionally leaks the sender's
payment UTXOs (sender-pays mode returns nothing at all; receiver-pays mode
returns only the fee UTXOs). -/
lemma c3_combined_error_restores (m : UtxoManager) (from_addr receiver_addr sa ra : String)
    (runeid : RuneId) (rune_amount btc_amount postage fee : Nat) (paid : Bool)
    (e : Nat × Nat × Nat) (m' : UtxoManager)
    (h : combined_build_transaction_with_fee m from_addr receiver_addr sa ra runeid
      rune_amount btc_amount postage fee paid = (.error e, m')) :
    let P := m.runicPool from_addr runeid
    let m1 := m.setRunicPool from_addr runeid []
    let qb := take_until_gt (m1.btcPool from_addr) btc_amount
    let m2 := m1.setBtcPool from_addr qb.2.2
    (sum_balances P < rune_amount ∧
      (∀ x, m'.btcPool x = m.btcPool x) ∧
      (∀ x rid, m'.runicPool x rid = m.runicPool x rid)) ∨
    (qb.2.1 < btc_amount ∧
      (∀ x, m'.btcPool x = m.btcPool x) ∧
      m'.runicPool from_addr runeid = [] ∧
      (∀ x rid, ¬ (x = from_addr ∧ rid = runeid) →
        m'.runicPool x rid = m.runicPool x rid)) ∨
    (paid = true ∧
      m'.btcPool from_addr = qb.2.2 ∧
      (∀ x, ¬ x = from_addr → m'.btcPool x = m.btcPool x) ∧
      m'.runicPool from_addr runeid = [] ∧
      (∀ x rid, ¬ (x = from_addr ∧ rid = runeid) →
        m'.runicPool x rid = m.runicPool x rid)) ∨
    (paid = false ∧
      (∀ x, m'.btcPool x = m2.btcPool x) ∧
      m'.runicPool from_addr runeid = [] ∧
      (∀ x rid, ¬ (x = from_addr ∧ rid = runeid) →
        m'.runicPool x rid = m.runicPool x rid)) := by
  intro P m1 qb m2
  rcases combined_build_error h with ⟨h1, hm⟩ | ⟨hge, h2, hm⟩ |
    ⟨hge, hbge, hp, h3, hm⟩ | ⟨hge, hbge, hp, h4, hm⟩
  · refine .inl ⟨h1, fun x => ?_, fun x rid => ?_⟩
    · rw [hm]
      rfl
    · rw [hm]
      exact record_runic_all_restores m from_addr runeid x rid
  · refine .inr (.inl ⟨h2, fun x => ?_, ?_, fun x rid hne => ?_⟩)
    · rw [hm]
      exact record_btc_restores (m.setRunicPool from_addr runeid []) from_addr btc_amount x
    · rw [hm, runicPool_record_btc, runicPool_setBtcPool, runicPool_setRunicPool,
        if_pos ⟨rfl, rfl⟩]
    · have hne' : ¬ (from_addr = x ∧ runeid = rid) := fun hp0 => hne ⟨hp0.1.symm, hp0.2.symm⟩
      rw [hm, runicPool_record_btc, runicPool_setBtcPool, runicPool_setRunicPool,
        if_neg hne']
  · refine .inr (.inr (.inl ⟨hp, ?_, fun x hx => ?_, ?_, fun x rid hne => ?_⟩))
    · rw [hm, btcPool_setBtcPool, if_pos rfl]
    · have hx' : ¬ from_addr = x := fun hc => hx hc.symm
      rw [hm, btcPool_setBtcPool, if_neg hx', btcPool_setRunicPool]
    · rw [hm, runicPool_setBtcPool, runicPool_setRunicPool, if_pos ⟨rfl, rfl⟩]
    · have hne' : ¬ (from_addr = x ∧ runeid = rid) := fun hp0 => hne ⟨hp0.1.symm, hp0.2.symm⟩
      rw [hm, runicPool_setBtcPool, runicPool_setRunicPool, if_neg hne']
  · refine .inr (.inr (.inr ⟨hp, fun x => ?_, ?_, fun x rid hne => ?_⟩))
    · rw [hm]
      exact record_btc_restores ((m.setRunicPool from_addr runeid []).setBtcPool from_addr
        (take_until_gt ((m.setRunicPool from_addr runeid []).btcPool from_addr)
          btc_amount).2.2) receiver_addr _ x
    · rw [hm, runicPool_record_btc, runicPool_setBtcPool, runicPool_setBtcPool,
        runicPool_setRunicPool, if_pos ⟨rfl, rfl⟩]
    · have hne' : ¬ (from_addr = x ∧ runeid = rid) := fun hp0 => hne ⟨hp0.1.symm, hp0.2.symm⟩
      rw [hm, runicPool_record_btc, runicPool_setBtcPool, runicPool_setBtcPool,
        runicPool_setRunicPool, if_neg hne']

/-- A plain-loop restart (builder success recorded back) restores every pool
exactly. -/
lemma c3_btc_restart_restores (m : UtxoManager) (addr sa ta : String) (amount fee : Nat)
    (paid : Bool) (tx : Tx) (sel : List Utxo) (m' : UtxoManager)
    (h : btc_build_transaction_with_fee m addr sa ta amount fee paid = (.ok (tx, sel), m')) :
    (∀ x, (m'.record_btc_utxos addr sel).btcPool x = m.btcPool x) ∧
    (∀ x rid, (m'.record_btc_utxos addr sel).runicPool x rid = m.runicPool x rid) := by
  obtain ⟨hsel, -, hm, -⟩ := btc_build_ok h
  constructor
  · intro x
    rw [hm, hsel]
    exact record_btc_restores m addr _ x
  · intro x rid
    rw [hm]
    rfl

/-- A two-sender-loop restart restores every plain pool up to permutation and
leaves runic pools untouched. -/
lemma c3_multi_restart_restores (m : UtxoManager) (addr0 addr1 a0 a1 recv : String)
    (amount0 amount1 fee : Nat) (paid : Bool) (tx : Tx) (sel0 sel1 : List Utxo)
    (m' : UtxoManager)
    (h : multi_build_transaction_with_fee m addr0 addr1 a0 a1 recv amount0 amount1 fee paid
      = (.ok (tx, sel0, sel1), m')) :
    (∀ x, List.Perm
      (((m'.record_btc_utxos addr0 sel0).record_btc_utxos addr1 sel1).btcPool x)
      (m.btcPool x)) ∧
    (∀ x rid, ((m'.record_btc_utxos addr0 sel0).record_btc_utxos addr1 sel1).runicPool x rid
      = m.runicPool x rid) := by
  obtain ⟨hsel0, hsel1, -, -, hm, -⟩ := multi_build_ok h
  constructor
  · intro x
    rw [hm, hsel0, hsel1]
    exact two_record_restore m addr0 addr1 _ _ _ _ (take_until_ge_append _ _)
      (take_until_ge_append _ _) x
  · intro x rid
    rw [hm]
    rfl

/-- A rune-loop restart (runic UTXOs back to the sender's runic pool, fee
UTXOs back to the fee payer's plain pool) restores every pool exactly. -/
lemma c3_rune_restart_restores (m : UtxoManager) (runeid : RuneId) (amount : Nat)
    (sender_addr receiver_addr sa ra : String) (fee : Nat) (paid : Bool) (postage : Nat)
    (tx : Tx) (rsel : List RunicUtxo) (fsel : List Utxo) (m' : UtxoManager)
    (h : rune_build_transaction_with_fee m runeid amount sender_addr receiver_addr sa ra
      fee paid postage = (.ok (tx, rsel, fsel), m')) :
    (∀ x, ((m'.record_runic_utxos sender_addr runeid rsel).record_btc_utxos
      (if paid then sender_addr else receiver_addr) fsel).btcPool x = m.btcPool x) ∧
    (∀ x rid, ((m'.record_runic_utxos sender_addr runeid rsel).record_btc_utxos
      (if paid then sender_addr else receiver_addr) fsel).runicPool x rid
      = m.runicPool x rid) := by
  obtain ⟨hrsel, hfsel, -, -, hm, -⟩ := rune_build_ok h
  constructor
  · intro x
    rw [hm, hfsel]
    by_cases hx : (if paid = true then sender_addr else receiver_addr) = x
    · rw [btcPool_record, if_pos hx, btcPool_record_runic, btcPool_setBtcPool, if_pos rfl,
        take_until_gt_append, btcPool_setRunicPool, hx]
    · rw [btcPool_record, if_neg hx, btcPool_record_runic, btcPool_setBtcPool, if_neg hx,
        btcPool_setRunicPool]
  · intro x rid
    rw [hm, hrsel, runicPool_record_btc]
    by_cases hk : sender_addr = x ∧ runeid = rid
    · rw [runicPool_record, if_pos hk, runicPool_setBtcPool, runicPool_setRunicPool,
        if_pos ⟨rfl, rfl⟩, take_runic_until_gt_append, hk.1, hk.2]
    · rw [runicPool_record, if_neg hk, runicPool_setBtcPool, runicPool_setRunicPool,
        if_neg hk]

/-- A combined-loop restart (runic and payment UTXOs back to the sender, fee
UTXOs back to the receiver) restores every runic pool exactly and every plain
pool up to permutation (exactly when the two addresses differ). -/
lemma c3_combined_restart_restores (m : UtxoManager) (from_addr receiver_addr sa ra : String)
    (runeid : RuneId) (rune_amount btc_amount postage fee : Nat) (paid : Bool)
    (tx : Tx) (rsel : List RunicUtxo) (bsel fsel : List Utxo) (m' : UtxoManager)
    (h : combined_build_transaction_with_fee m from_addr receiver_addr sa ra runeid
      rune_amount btc_amount postage fee paid = (.ok (tx, rsel, bsel, fsel), m')) :
    (∀ x, List.Perm
      ((((m'.record_runic_utxos from_addr runeid rsel).record_btc_utxos from_addr
        bsel).record_btc_utxos receiver_addr fsel).btcPool x)
      (m.btcPool x)) ∧
    (∀ x rid, (((m'.record_runic_utxos from_addr runeid rsel).record_btc_utxos from_addr
      bsel).record_btc_utxos receiver_addr fsel).runicPool x rid
      = m.runicPool x rid) := by
  obtain ⟨hrsel, hbsel, -, -, hpt, hpf⟩ := combined_build_ok h
  cases paid
  · obtain ⟨hfsel, -, hm, -⟩ := hpf rfl
    constructor
    · intro x
      rw [hm, hrsel, hbsel, hfsel]
      set m1 := m.setRunicPool from_addr runeid [] with hm1
      set qb := take_until_gt (m1.btcPool from_addr) btc_amount with hqb
      set m2 := m1.setBtcPool from_addr qb.2.2 with hm2
      set act := wsub64 (rune_required_btc (rune_need_change
        (sum_balances (m.runicPool from_addr runeid)) rune_amount
        (m.runicPool from_addr runeid).length) postage)
        (runic_btc (m.runicPool from_addr runeid)) with hact
      set qf := take_until_gt (m2.btcPool receiver_addr) (fee + act) with hqf
      have happb : qb.1 ++ qb.2.2 = m.btcPool from_addr := by
        rw [hqb, take_until_gt_append, hm1, btcPool_setRunicPool]
      have happf : qf.1 ++ qf.2.2 = m2.btcPool receiver_addr := by
        rw [hqf, take_until_gt_append]
      by_cases h1x : receiver_addr = x
      · rw [btcPool_record, if_pos h1x]
        by_cases h0x : from_addr = receiver_addr
        · rw [btcPool_record, if_pos h0x, btcPool_record_runic, btcPool_setBtcPool,
            if_pos h0x.symm]
          have happf' : qf.1 ++ qf.2.2 = qb.2.2 := by
            rw [happf, hm2, btcPool_setBtcPool, if_pos h0x]
          have heq : qb.1 ++ (qf.1 ++ qf.2.2) = m.btcPool x := by
            rw [happf', happb, h0x, h1x]
          exact (perm_shuffle _ _ _).trans (by rw [heq])
        · rw [btcPool_record, if_neg h0x, btcPool_record_runic, btcPool_setBtcPool,
            if_pos rfl, happf, hm2, btcPool_setBtcPool, if_neg h0x, hm1,
            btcPool_setRunicPool, h1x]
      · rw [btcPool_record, if_neg h1x, btcPool_record]
        by_cases h0x : from_addr = x
        · have h10 : ¬ receiver_addr = from_addr := fun hc => h1x (hc.trans h0x)
          rw [if_pos h0x, btcPool_record_runic, btcPool_setBtcPool, if_neg h10, hm2,
            btcPool_setBtcPool, if_pos rfl, happb, h0x]
        · rw [if_neg h0x, btcPool_record_runic, btcPool_setBtcPool, if_neg h1x, hm2,
            btcPool_setBtcPool, if_neg h0x, hm1, btcPool_setRunicPool]
    · intro x rid
      rw [hm, hrsel, runicPool_record_btc, runicPool_record_btc]
      by_cases hk : from_addr = x ∧ runeid = rid
      · rw [runicPool_record, if_pos hk, runicPool_setBtcPool, runicPool_setBtcPool,
          runicPool_setRunicPool, if_pos ⟨rfl, rfl⟩, List.append_nil, hk.1, hk.2]
      · rw [runicPool_record, if_neg hk, runicPool_setBtcPool, runicPool_setBtcPool,
          runicPool_setRunicPool, if_neg hk]
  · obtain ⟨hfsel, hm, -, -⟩ := hpt rfl
    constructor
    · intro x
      rw [hm, hrsel, hbsel, hfsel]
      set m1 := m.setRunicPool from_addr runeid [] with hm1
      set qb := take_until_gt (m1.btcPool from_addr) btc_amount with hqb
      have happb : qb.1 ++ qb.2.2 = m.btcPool from_addr := by
        rw [hqb, take_until_gt_append, hm1, btcPool_setRunicPool]
      by_cases h1x : receiver_addr = x
      · rw [btcPool_record, if_pos h1x, List.nil_append]
        by_cases h0x : from_addr = receiver_addr
        · rw [btcPool_record, if_pos h0x, btcPool_record_runic, btcPool_setBtcPool,
            if_pos rfl, happb, h0x, h1x]
        · rw [btcPool_record, if_neg h0x, btcPool_record_runic, btcPool_setBtcPool,
            if_neg h0x, hm1, btcPool_setRunicPool, h1x]
      · rw [btcPool_record, if_neg h1x, btcPool_record]
        by_cases h0x : from_addr = x
        · rw [if_pos h0x, btcPool_record_runic, btcPool_setBtcPool, if_pos rfl, happb, h0x]
        · rw [if_neg h0x, btcPool_record_runic, btcPool_setBtcPool, if_neg h0x, hm1,
            btcPool_setRunicPool]
    · intro x rid
      rw [hm, hrsel, runicPool_record_btc, runicPool_record_btc]
      by_cases hk : from_addr = x ∧ runeid = rid
      · rw [runicPool_record, if_pos hk, runicPool_setBtcPool, runicPool_setRunicPool,
          if_pos ⟨rfl, rfl⟩, List.append_nil, hk.1, hk.2]
      · rw [runicPool_record, if_neg hk, runicPool_setBtcPool, runicPool_setRunicPool,
          if_neg hk]

/-- The manager returned by the failing rune build on `wm_c3`. -/
def wn_c3 : UtxoManager := ⟨[("s", [])], [(("s", wrid), [])]⟩

/-- C3 (amended): rollback on failure and on fee-loop restart holds with
exceptions.  Plain-build failures restore all pools exactly; two-sender
failures restore all plain pools up to permutation (exactly when the sender
addresses differ); rune-build FIRST-phase failures restore everything, but a
rune-build SECOND-phase failure returns only the fee UTXOs and leaves the
sender's runic pool holding just the unselected remainder (the borrowed runic
UTXOs leak); combined-build failures restore everything only in the first
phase — later phases leak the drained runic pool and, in the fee phase, the
sender's payment UTXOs as well.  Every fee-loop RESTART, in contrast,
restores all pools (exactly, or up to permutation for the two-address
shapes). -/
theorem c3_rollback_and_leaks :
    (∀ (m : UtxoManager) (addr sa ta : String) (amount fee : Nat) (paid : Bool) (e : Nat)
      (m' : UtxoManager),
      btc_build_transaction_with_fee m addr sa ta amount fee paid = (.error e, m') →
      (∀ x, m'.btcPool x = m.btcPool x) ∧
      (∀ x rid, m'.runicPool x rid = m.runicPool x rid)) ∧
    (∀ (m : UtxoManager) (addr0 addr1 a0 a1 recv : String) (amount0 amount1 fee : Nat)
      (paid : Bool) (e : Nat × Nat) (m' : UtxoManager),
      multi_build_transaction_with_fee m addr0 addr1 a0 a1 recv amount0 amount1 fee paid
        = (.error e, m') →
      (∀ x, List.Perm (m'.btcPool x) (m.btcPool x)) ∧
      (∀ x rid, m'.runicPool x rid = m.runicPool x rid)) ∧
    (∀ (m : UtxoManager) (runeid : RuneId) (amount : Nat)
      (sender_addr receiver_addr sa ra : String) (fee : Nat) (paid : Bool) (postage : Nat)
      (e : Nat × Nat) (m' : UtxoManager),
      rune_build_transaction_with_fee m runeid amount sender_addr receiver_addr sa ra
        fee paid postage = (.error e, m') →
      (∀ x, m'.btcPool x = m.btcPool x) ∧
      (∀ x rid, ¬ (x = sender_addr ∧ rid = runeid) →
        m'.runicPool x rid = m.runicPool x rid) ∧
      ((take_runic_until_gt (m.runicPool sender_addr runeid) amount).2.1 < amount →
        m'.runicPool sender_addr runeid = m.runicPool sender_addr runeid) ∧
      (amount ≤ (take_runic_until_gt (m.runicPool sender_addr runeid) amount).2.1 →
        m'.runicPool sender_addr runeid
          = (take_runic_until_gt (m.runicPool sender_addr runeid) amount).2.2.2)) ∧
    (∀ (m : UtxoManager) (from_addr receiver_addr sa ra : String) (runeid : RuneId)
      (rune_amount btc_amount postage fee : Nat) (paid : Bool) (e : Nat × Nat × Nat)
      (m' : UtxoManager),
      combined_build_transaction_with_fee m from_addr receiver_addr sa ra runeid
        rune_amount btc_amount postage fee paid = (.error e, m') →
      let P := m.runicPool from_addr runeid
      let m1 := m.setRunicPool from_addr runeid []
      let qb := take_until_gt (m1.btcPool from_addr) btc_amount
      let m2 := m1.setBtcPool from_addr qb.2.2
      (sum_balances P < rune_amount ∧
        (∀ x, m'.btcPool x = m.btcPool x) ∧
        (∀ x rid, m'.runicPool x rid = m.runicPool x rid)) ∨
      (qb.2.1 < btc_amount ∧
        (∀ x, m'.btcPool x = m.btcPool x) ∧
        m'.runicPool from_addr runeid = [] ∧
        (∀ x rid, ¬ (x = from_addr ∧ rid = runeid) →
          m'.runicPool x rid = m.runicPool x rid)) ∨
      (paid = true ∧
        m'.btcPool from_addr = qb.2.2 ∧
        (∀ x, ¬ x = from_addr → m'.btcPool x = m.btcPool x) ∧
        m'.runicPool from_addr runeid = [] ∧
        (∀ x rid, ¬ (x = from_addr ∧ rid = runeid) →
          m'.runicPool x rid = m.runicPool x rid)) ∨
      (paid = false ∧
        (∀ x, m'.btcPool x = m2.btcPool x) ∧
        m'.runicPool from_addr runeid = [] ∧
        (∀ x rid, ¬ (x = from_addr ∧ rid = runeid) →
          m'.runicPool x rid = m.runicPool x rid))) ∧
    (∀ (m : UtxoManager) (addr sa ta : String) (amount fee : Nat) (paid : Bool) (tx : Tx)
      (sel : List Utxo) (m' : UtxoManager),
      btc_build_transaction_with_fee m addr sa ta amount fee paid = (.ok (tx, sel), m') →
      (∀ x, (m'.record_btc_utxos addr sel).btcPool x = m.btcPool x) ∧
      (∀ x rid, (m'.record_btc_utxos addr sel).runicPool x rid = m.runicPool x rid)) ∧
    (∀ (m : UtxoManager) (addr0 addr1 a0 a1 recv : String) (amount0 amount1 fee : Nat)
      (paid : Bool) (tx : Tx) (sel0 sel1 : List Utxo) (m' : UtxoManager),
      multi_build_transaction_with_fee m addr0 addr1 a0 a1 recv amount0 amount1 fee paid
        = (.ok (tx, sel0, sel1), m') →
      (∀ x, List.Perm
        (((m'.record_btc_utxos addr0 sel0).record_btc_utxos addr1 sel1).btcPool x)
        (m.btcPool x)) ∧
      (∀ x rid, ((m'.record_btc_utxos addr0 sel0).record_btc_utxos addr1 sel1).runicPool
        x rid = m.runicPool x rid)) ∧
    (∀ (m : UtxoManager) (runeid : RuneId) (amount : Nat)
      (sender_addr receiver_addr sa ra : String) (fee : Nat) (paid : Bool) (postage : Nat)
      (tx : Tx) (rsel : List RunicUtxo) (fsel : List Utxo) (m' : UtxoManager),
      rune_build_transaction_with_fee m runeid amount sender_addr receiver_addr sa ra
        fee paid postage = (.ok (tx, rsel, fsel), m') →
      (∀ x, ((m'.record_runic_utxos sender_addr runeid rsel).record_btc_utxos
        (if paid then sender_addr else receiver_addr) fsel).btcPool x = m.btcPool x) ∧
      (∀ x rid, ((m'.record_runic_utxos sender_addr runeid rsel).record_btc_utxos
        (if paid then sender_addr else receiver_addr) fsel).runicPool x rid
        = m.runicPool x rid)) ∧
    (∀ (m : UtxoManager) (from_addr receiver_addr sa ra : String) (runeid : RuneId)
      (rune_amount btc_amount postage fee : Nat) (paid : Bool) (tx : Tx)
      (rsel : List RunicUtxo) (bsel fsel : List Utxo) (m' : UtxoManager),
      combined_build_transaction_with_fee m from_addr receiver_addr sa ra runeid
        rune_amount btc_amount postage fee paid = (.ok (tx, rsel, bsel, fsel), m') →
      (∀ x, List.Perm
        ((((m'.record_runic_utxos from_addr runeid rsel).record_btc_utxos from_addr
          bsel).record_btc_utxos receiver_addr fsel).btcPool x)
        (m.btcPool x)) ∧
      (∀ x rid, (((m'.record_runic_utxos from_addr runeid rsel).record_btc_utxos from_addr
        bsel).record_btc_utxos receiver_addr fsel).runicPool x rid
        = m.runicPool x rid)) :=
  ⟨c3_btc_error_restores, c3_multi_error_restores, c3_rune_error_restores,
   c3_combined_error_restores, c3_btc_restart_restores, c3_multi_restart_restores,
   c3_rune_restart_restores, c3_combined_restart_restores⟩

/-- Witness for C3: on the concrete failing rune build over `wm_c3`, the
plain pools and the untouched runic keys are restored, the second-phase
condition holds, and the sender's runic pool keeps exactly the unselected
remainder (here: nothing). -/
theorem c3_rollback_and_leaks_witness :
    wn_c3.btcPool "s" = wm_c3.btcPool "s" ∧
    wn_c3.runicPool "r" wrid = wm_c3.runicPool "r" wrid ∧
    50 ≤ (take_runic_until_gt (wm_c3.runicPool "s" wrid) 50).2.1 ∧
    wn_c3.runicPool "s" wrid = (take_runic_until_gt (wm_c3.runicPool "s" wrid) 50).2.2.2 := by
  have hb : rune_build_transaction_with_fee wm_c3 wrid 50 "s" "r" "s" "r" 0 true 10000
      = (.error (0, 0), wn_c3) := rfl
  have h := c3_rollback_and_leaks.2.2.1 wm_c3 wrid 50 "s" "r" "s" "r" 0 true 10000
    (0, 0) wn_c3 hb
  exact ⟨h.1 "s", h.2.1 "r" wrid (by decide), by decide, h.2.2.2 (by decide)⟩

/-- C5: in every successful rune build, the runic selection is the prefix of
the sender's pool drawn until the cumulative balance strictly exceeds the
requested amount — every proper prefix stays ≤ amount, and equality of the
total is only possible when the pool was exhausted; the change flag equals
`(total > amount) || (more than one runic input)`; when it holds the outputs
begin with the OP_RETURN (value 0, edict `{runeid, amount, output 2}`), a
postage output to the sender and a postage output to the receiver, in that
order; when it does not, the OP_RETURN is omitted and the rune outputs are
exactly one postage output to the receiver (followed at most by a BTC change
output). -/
theorem c5_rune_selection_and_outputs {m : UtxoManager} {runeid : RuneId} {amount : Nat}
    {sender_addr receiver_addr sa ra : String} {fee : Nat} {paid : Bool} {postage : Nat}
    {tx : Tx} {rsel : List RunicUtxo} {fsel : List Utxo} {m' : UtxoManager}
    (h : rune_build_transaction_with_fee m runeid amount sender_addr receiver_addr sa ra
      fee paid postage = (.ok (tx, rsel, fsel), m')) :
    rsel = (take_runic_until_gt (m.runicPool sender_addr runeid) amount).1 ∧
    amount ≤ sum_balances rsel ∧
    sum_balances rsel.dropLast ≤ amount ∧
    (sum_balances rsel ≤ amount →
      (take_runic_until_gt (m.runicPool sender_addr runeid) amount).2.2.2 = []) ∧
    (rune_need_change (sum_balances rsel) amount rsel.length = true ↔
      (amount < sum_balances rsel ∨ 1 < rsel.length)) ∧
    (rune_need_change (sum_balances rsel) amount rsel.length = true →
      tx.outputs.take 3 =
        [TxOut.mk (Script.runestoneOpReturn runeid amount 2) 0,
         TxOut.mk (Script.p2pkh sa) postage,
         TxOut.mk (Script.p2pkh ra) postage]) ∧
    (rune_need_change (sum_balances rsel) amount rsel.length = false →
      (tx.outputs = [TxOut.mk (Script.p2pkh ra) postage] ∨
       ∃ v, DUST_THRESHOLD < v ∧
         tx.outputs = [TxOut.mk (Script.p2pkh ra) postage,
           TxOut.mk (Script.p2pkh (if paid then sa else ra)) v])) := by
  obtain ⟨hrsel, hfsel, hge, hfge, hm, htx⟩ := rune_build_ok h
  have hsum : (take_runic_until_gt (m.runicPool sender_addr runeid) amount).2.1
      = sum_balances rsel := by
    rw [hrsel]
    exact take_runic_until_gt_sum _ _
  refine ⟨hrsel, ?_, ?_, ?_, ?_, ?_, ?_⟩
  · exact hsum ▸ hge
  · rw [hrsel]
    exact take_runic_until_gt_dropLast _ _
  · intro hle
    apply take_runic_until_gt_exhaust
    rw [hsum]
    exact hle
  · simp [rune_need_change]
  · intro hnc
    have hnc' : rune_need_change
        (take_runic_until_gt (m.runicPool sender_addr runeid) amount).2.1 amount
        (take_runic_until_gt (m.runicPool sender_addr runeid) amount).1.length = true := by
      rw [hsum, ← hrsel]
      exact hnc
    rw [htx]
    simp only [hnc', if_true]
    split <;> split <;> rfl
  · intro hnc
    have hnc' : rune_need_change
        (take_runic_until_gt (m.runicPool sender_addr runeid) amount).2.1 amount
        (take_runic_until_gt (m.runicPool sender_addr runeid) amount).1.length = false := by
      rw [hsum, ← hrsel]
      exact hnc
    rw [htx]
    simp only [hnc', Bool.false_eq_true, if_false]
    cases paid
    all_goals simp only [Bool.false_eq_true, if_false, if_true]
    all_goals
      split
      · rename_i hd
        exact .inr ⟨_, hd, by simp⟩
      · exact .inl (by simp)

set_option maxRecDepth 8000 in
/-- Witness for C5: on `wm_rune` (two runic UTXOs of balances 100 and 150,
transfer 250-balance worth 200) the built transaction draws both UTXOs,
needs rune change, and its outputs start with the OP_RETURN and the two
postage outputs. -/
theorem c5_rune_selection_and_outputs_witness :
    w_r3.runic_utxos = (take_runic_until_gt (wm_rune.runicPool "s" wrid) 200).1 ∧
    200 ≤ sum_balances w_r3.runic_utxos ∧
    sum_balances w_r3.runic_utxos.dropLast ≤ 200 ∧
    (sum_balances w_r3.runic_utxos ≤ 200 →
      (take_runic_until_gt (wm_rune.runicPool "s" wrid) 200).2.2.2 = []) ∧
    (rune_need_change (sum_balances w_r3.runic_utxos) 200 w_r3.runic_utxos.length = true ↔
      (200 < sum_balances w_r3.runic_utxos ∨ 1 < w_r3.runic_utxos.length)) ∧
    (rune_need_change (sum_balances w_r3.runic_utxos) 200 w_r3.runic_utxos.length = true →
      w_r3.txn.outputs.take 3 =
        [TxOut.mk (Script.runestoneOpReturn wrid 200 2) 0,
         TxOut.mk (Script.p2pkh "s") 10000,
         TxOut.mk (Script.p2pkh "r") 10000]) ∧
    (rune_need_change (sum_balances w_r3.runic_utxos) 200 w_r3.runic_utxos.length = false →
      (w_r3.txn.outputs = [TxOut.mk (Script.p2pkh "r") 10000] ∨
       ∃ v, DUST_THRESHOLD < v ∧
         w_r3.txn.outputs = [TxOut.mk (Script.p2pkh "r") 10000,
           TxOut.mk (Script.p2pkh (if true then "s" else "r")) v])) := by
  have hb : rune_build_transaction_with_fee wm_rune wrid 200 "s" "r" "s" "r" 576 true 10000
      = (.ok (w_r3.txn, w_r3.runic_utxos, w_r3.fee_utxos), wn3) := rfl
  exact c5_rune_selection_and_outputs hb

/-- The combined builder's runic selection drains the whole pool. -/
lemma c10_builder_drains (m : UtxoManager) (from_addr receiver_addr sa ra : String)
    (runeid : RuneId) (rune_amount btc_amount postage fee : Nat) (paid : Bool) (tx : Tx)
    (rsel : List RunicUtxo) (bsel fsel : List Utxo) (m' : UtxoManager)
    (h : combined_build_transaction_with_fee m from_addr receiver_addr sa ra runeid
      rune_amount btc_amount postage fee paid = (.ok (tx, rsel, bsel, fsel), m')) :
    rsel = m.runicPool from_addr runeid ∧
    rune_amount ≤ sum_balances rsel ∧
    m'.runicPool from_addr runeid = [] := by
  obtain ⟨hrsel, hbsel, hge, hbge, hpt, hpf⟩ := combined_build_ok h
  refine ⟨hrsel, ?_, ?_⟩
  · rw [hrsel]
    exact hge
  · cases paid
    · obtain ⟨-, -, hm, -⟩ := hpf rfl
      rw [hm, runicPool_setBtcPool, runicPool_setBtcPool, runicPool_setRunicPool,
        if_pos ⟨rfl, rfl⟩]
    · obtain ⟨-, hm, -, -⟩ := hpt rfl
      rw [hm, runicPool_setBtcPool, runicPool_setRunicPool, if_pos ⟨rfl, rfl⟩]

/-- Across fee-loop restarts the sender's runic pool is restored exactly, so
a converged combined transfer reports the sender's entire original runic
pool and leaves it empty. -/
lemma c10_loop_drains (from_addr receiver_addr sa ra : String) (runeid : RuneId)
    (rune_amount btc_amount : Nat) (postage_arg : Option Nat) (rate : Nat) (paid : Bool) :
    ∀ (fuel : Nat) (m : UtxoManager) (fee0 : Nat) (r : CombinedTxnType) (m2 : UtxoManager),
    combined_transfer from_addr receiver_addr sa ra runeid rune_amount btc_amount
      postage_arg rate paid fuel m fee0 = some (.ok r, m2) →
    r.runic_utxos = m.runicPool from_addr runeid ∧
    m2.runicPool from_addr runeid = [] := by
  intro fuel
  induction fuel with
  | zero =>
    intro m fee0 r m2 h
    simp [combined_transfer] at h
  | succ n ih =>
    intro m fee0 r m2 h
    simp only [combined_transfer] at h
    split at h
    · simp at h
    · rename_i txn rsel bsel fsel m' harm
      split at h
      · simp only [Option.some.injEq, Prod.mk.injEq, Except.ok.injEq] at h
        obtain ⟨hr, hm2⟩ := h
        subst hr
        subst hm2
        obtain ⟨h1, -, h3⟩ := c10_builder_drains _ _ _ _ _ _ _ _ _ _ _ _ _ _ _ _ harm
        exact ⟨h1, h3⟩
      · obtain ⟨h1, h2⟩ := ih _ _ _ _ h
        refine ⟨?_, h2⟩
        rw [h1]
        exact (c3_combined_restart_restores _ _ _ _ _ _ _ _ _ _ _ _ _ _ _ _
          harm).2 from_addr runeid

/-- C10: the combined builder's runic selection loop has no stopping
condition short of pool exhaustion: every successful combined build (and
every converged combined transfer) consumes the sender's entire runic pool
for the requested rune id — the reported runic inputs are exactly that pool,
their total balance covers the requested amount, and immediately after the
build the pool is empty. -/
theorem c10_combined_drains_runic_pool :
    (∀ (m : UtxoManager) (from_addr receiver_addr sa ra : String) (runeid : RuneId)
      (rune_amount btc_amount postage fee : Nat) (paid : Bool) (tx : Tx)
      (rsel : List RunicUtxo) (bsel fsel : List Utxo) (m' : UtxoManager),
      combined_build_transaction_with_fee m from_addr receiver_addr sa ra runeid
        rune_amount btc_amount postage fee paid = (.ok (tx, rsel, bsel, fsel), m') →
      rsel = m.runicPool from_addr runeid ∧
      rune_amount ≤ sum_balances rsel ∧
      m'.runicPool from_addr runeid = []) ∧
    (∀ (from_addr receiver_addr sa ra : String) (runeid : RuneId)
      (rune_amount btc_amount : Nat) (postage_arg : Option Nat) (rate : Nat) (paid : Bool)
      (fuel : Nat) (m : UtxoManager) (fee0 : Nat) (r : CombinedTxnType) (m2 : UtxoManager),
      combined_transfer from_addr receiver_addr sa ra runeid rune_amount btc_amount
        postage_arg rate paid fuel m fee0 = some (.ok r, m2) →
      r.runic_utxos = m.runicPool from_addr runeid ∧
      m2.runicPool from_addr runeid = []) :=
  ⟨c10_builder_drains, c10_loop_drains⟩

set_option maxRecDepth 8000 in
/-- Witness for C10: the concrete combined run on `wm_combined` consumes the
sender's single runic UTXO and leaves the runic pool empty. -/
theorem c10_combined_drains_runic_pool_witness :
    w_r4.runic_utxos = wm_combined.runicPool "s" wrid ∧
    wn4.runicPool "s" wrid = [] := by
  have h4 : combined_transfer "s" "r" "s" "r" wrid 50 25000 none 1000 false 3 wm_combined 0
      = some (.ok w_r4, wn4) := rfl
  exact c10_combined_drains_runic_pool.2 "s" "r" "s" "r" wrid 50 25000 none 1000 false
    3 wm_combined 0 w_r4 wn4 h4

/-- Builder-level equivalence for the two-sender shape: the sign-time
reassembly from the stored lists reproduces the builder's transaction (the
handler subtracts the whole fee where the builder subtracts its two halves in
sequence, equal as long as the fee fits in u64). -/
lemma c7_multi_builder {m : UtxoManager} {addr0 addr1 a0 a1 recv : String}
    {amount0 amount1 fee : Nat} {paid : Bool} {tx : Tx} {sel0 sel1 : List Utxo}
    {m' : UtxoManager}
    (h : multi_build_transaction_with_fee m addr0 addr1 a0 a1 recv amount0 amount1 fee paid
      = (.ok (tx, sel0, sel1), m'))
    (hfee : fee < 18446744073709551616) :
    lego_sign_time_txn sel0 sel1 a0 a1 recv amount0 amount1 fee paid = tx := by
  obtain ⟨hsel0, hsel1, hge0, hge1, hm, htx⟩ := multi_build_ok h
  have hsplit : (multi_fee_split fee).1 + (multi_fee_split fee).2 < 18446744073709551616 := by
    rw [multi_fee_split_add]
    exact hfee
  rw [htx, hsel0, hsel1]
  simp only [lego_sign_time_txn]
  simp only [← take_until_ge_sum]
  rw [wsub64_of_le hge0, wsub64_of_le hge1, wsub64_chain hsplit, multi_fee_split_add]

/-- Builder-level equivalence for the rune shape: the sign-time reassembly
recomputes the runic totals, BTC-in-runic and fee totals from the stored
lists and reproduces the builder's transaction exactly. -/
lemma c7_rune_builder {m : UtxoManager} {runeid : RuneId} {amount : Nat}
    {sender_addr receiver_addr sa ra : String} {fee : Nat} {paid : Bool} {postage : Nat}
    {tx : Tx} {rsel : List RunicUtxo} {fsel : List Utxo} {m' : UtxoManager}
    (h : rune_build_transaction_with_fee m runeid amount sender_addr receiver_addr sa ra
      fee paid postage = (.ok (tx, rsel, fsel), m')) :
    rune_sign_time_txn rsel fsel sa ra runeid amount fee postage paid = tx := by
  obtain ⟨hrsel, hfsel, hge, hfge, hm, htx⟩ := rune_build_ok h
  rw [htx, hrsel, hfsel]
  simp only [rune_sign_time_txn]
  simp only [← take_runic_until_gt_sum, ← take_runic_until_gt_btc, ← take_until_gt_sum]

/-- Builder-level equivalence for the combined shape: the sign-time
reassembly reproduces the builder's transaction exactly in both fee-payment
modes. -/
lemma c7_combined_builder {m : UtxoManager} {from_addr receiver_addr sa ra : String}
    {runeid : RuneId} {rune_amount btc_amount postage fee : Nat} {paid : Bool}
    {tx : Tx} {rsel : List RunicUtxo} {bsel fsel : List Utxo} {m' : UtxoManager}
    (h : combined_build_transaction_with_fee m from_addr receiver_addr sa ra runeid
      rune_amount btc_amount postage fee paid = (.ok (tx, rsel, bsel, fsel), m')) :
    combined_sign_time_txn rsel bsel fsel sa ra runeid rune_amount btc_amount fee postage
      paid = tx := by
  obtain ⟨hrsel, hbsel, hge, hbge, hpt, hpf⟩ := combined_build_ok h
  cases paid
  · obtain ⟨hfsel, hle, hm, htx⟩ := hpf rfl
    rw [htx, hrsel, hbsel, hfsel]
    simp only [combined_sign_time_txn]
    simp only [Bool.false_eq_true, if_false]
    simp only [← take_until_gt_sum]
  · obtain ⟨hfsel, hm, hguard, htx⟩ := hpt rfl
    rw [htx, hrsel, hbsel, hfsel]
    simp only [combined_sign_time_txn]
    simp only [if_true]
    simp only [← take_until_gt_sum, List.map_nil, List.append_nil]

/-- C7: for every converged build of the two-sender, rune-transfer and
combined shapes, the transaction re-assembled at sign time from the stored
UTXO lists and request parameters is identical, input for input and output
for output, to the transaction the fee-converging builder returned (for the
two-sender shape under the u64 range of the fee, where subtracting the whole
fee equals subtracting its two halves in sequence). -/
theorem c7_sign_time_reassembly :
    (∀ (addr0 addr1 a0 a1 recv : String) (amount0 amount1 rate : Nat) (paid : Bool)
      (fuel : Nat) (m : UtxoManager) (fee0 : Nat) (r : LegoBitcoinTxnType)
      (m2 : UtxoManager),
      multi_transfer addr0 addr1 a0 a1 recv amount0 amount1 rate paid fuel m fee0
        = some (.ok r, m2) →
      r.fee < 18446744073709551616 →
      lego_sign_time_txn r.utxos0 r.utxos1 r.address0 r.address1 r.receiver
        r.amount0 r.amount1 r.fee r.paid_by_sender = r.txn) ∧
    (∀ (runeid : RuneId) (amount : Nat) (sender_addr receiver_addr sa ra : String)
      (rate : Nat) (paid : Bool) (postage_arg : Option Nat) (fuel : Nat)
      (m : UtxoManager) (fee0 : Nat) (r : RunestoneTxnType) (m2 : UtxoManager),
      rune_transfer runeid amount sender_addr receiver_addr sa ra rate paid postage_arg
        fuel m fee0 = some (.ok r, m2) →
      rune_sign_time_txn r.runic_utxos r.fee_utxos r.sender_address r.receiver_address
        r.runeid r.amount r.fee r.postage r.paid_by_sender = r.txn) ∧
    (∀ (from_addr receiver_addr sa ra : String) (runeid : RuneId)
      (rune_amount btc_amount : Nat) (postage_arg : Option Nat) (rate : Nat) (paid : Bool)
      (fuel : Nat) (m : UtxoManager) (fee0 : Nat) (r : CombinedTxnType) (m2 : UtxoManager),
      combined_transfer from_addr receiver_addr sa ra runeid rune_amount btc_amount
        postage_arg rate paid fuel m fee0 = some (.ok r, m2) →
      combined_sign_time_txn r.runic_utxos r.btc_utxos r.fee_utxos r.sender_address
        r.receiver_address r.runeid r.rune_amount r.btc_amount r.fee r.postage
        r.paid_by_sender = r.txn) := by
  refine ⟨?_, ?_, ?_⟩
  · intro addr0 addr1 a0 a1 recv amount0 amount1 rate paid fuel m fee0 r m2 h hfee
    obtain ⟨mI, hb, -, -, -, ha0, ha1, ham0, ham1, hps, hrecv⟩ := multi_transfer_ok h
    rw [ha0, ha1, ham0, ham1, hps, hrecv]
    exact c7_multi_builder hb hfee
  · intro runeid amount sender_addr receiver_addr sa ra rate paid postage_arg fuel m
      fee0 r m2 h
    obtain ⟨mI, hb, -, -, -, hrid, hamt, hps, hsa, hra, hpost⟩ := rune_transfer_ok h
    rw [hrid, hamt, hps, hsa, hra, hpost]
    exact c7_rune_builder hb
  · intro from_addr receiver_addr sa ra runeid rune_amount btc_amount postage_arg rate
      paid fuel m fee0 r m2 h
    obtain ⟨mI, hb, -, -, -, hsa, hra, hrid, hram, hbam, hps, hpost⟩ :=
      combined_transfer_ok h
    rw [hsa, hra, hrid, hram, hbam, hps, hpost]
    exact c7_combined_builder hb

set_option maxRecDepth 8000 in
/-- Witness for C7: the three concrete converged runs re-assemble at sign
time to exactly the stored transactions. -/
theorem c7_sign_time_reassembly_witness :
    lego_sign_time_txn w_r2.utxos0 w_r2.utxos1 w_r2.address0 w_r2.address1 w_r2.receiver
      w_r2.amount0 w_r2.amount1 w_r2.fee w_r2.paid_by_sender = w_r2.txn ∧
    rune_sign_time_txn w_r3.runic_utxos w_r3.fee_utxos w_r3.sender_address
      w_r3.receiver_address w_r3.runeid w_r3.amount w_r3.fee w_r3.postage
      w_r3.paid_by_sender = w_r3.txn ∧
    combined_sign_time_txn w_r4.runic_utxos w_r4.btc_utxos w_r4.fee_utxos
      w_r4.sender_address w_r4.receiver_address w_r4.runeid w_r4.rune_amount
      w_r4.btc_amount w_r4.fee w_r4.postage w_r4.paid_by_sender = w_r4.txn := by
  have h2 : multi_transfer "p" "q" "p" "q" "r" 51 50 1000 true 3 wm_multi 0
      = some (.ok w_r2, wn2) := rfl
  have h3 : rune_transfer wrid 200 "s" "r" "s" "r" 1000 true none 3 wm_rune 0
      = some (.ok w_r3, wn3) := rfl
  have h4 : combined_transfer "s" "r" "s" "r" wrid 50 25000 none 1000 false 3 wm_combined 0
      = some (.ok w_r4, wn4) := rfl
  exact ⟨c7_sign_time_reassembly.1 _ _ _ _ _ _ _ _ _ _ _ _ _ _ h2 (by decide),
    c7_sign_time_reassembly.2.1 _ _ _ _ _ _ _ _ _ _ _ _ _ _ h3,
    c7_sign_time_reassembly.2.2 _ _ _ _ _ _ _ _ _ _ _ _ _ _ _ h4⟩
